import Mathlib

/-!
Verification development for the xinyue search plugin (`main.py`).

The Python source is shallowly embedded: pure fragments become Lean
functions, network traffic is threaded through explicit outcome oracles
and call traces, and the mutable per-user session / cookie-cache maps
become explicit state arguments.  Python floats (timestamps from
`time.time()`) are modelled as rationals; Python strings (sequences of
unicode code points) as Lean strings manipulated through their character
lists.
-/

/-! ### Python string primitives

Helpers modelling the Python `str` operations used by `main.py`
(`strip`, `split`, `startswith`, slicing, `lower`, `in`). They are
written on the character list so that they evaluate by `decide`.
-/

/-- Whitespace characters removed by Python `str.strip()`. -/

def pyIsSpace (c : Char) : Bool :=
  c = ' ' || c = '\t' || c = '\n' || c = '\r' || c = '\x0b' || c = '\x0c'

/-- Python `s.strip()`. -/

def pyStrip (s : String) : String :=
  ⟨((s.data.dropWhile pyIsSpace).reverse.dropWhile pyIsSpace).reverse⟩

/-- Python `s.split(c)` for a one-character separator (accumulator form). -/

def pySplitAux (c : Char) : List Char → List Char → List String
  | [], acc => [⟨acc.reverse⟩]
  | x :: xs, acc =>
    if x = c then ⟨acc.reverse⟩ :: pySplitAux c xs []
    else pySplitAux c xs (x :: acc)

/-- Python `s.split('\n')`. -/

def pySplitNl (s : String) : List String :=
  pySplitAux '\n' s.data []

/-- Python `s.startswith(pre)`. -/

def pyStartsWith (s pre : String) : Bool :=
  pre.data.isPrefixOf s.data

/-- Python `s[n:]` (slicing from index `n`). -/

def pyDrop (s : String) (n : ℕ) : String :=
  ⟨s.data.drop n⟩

/-- Python `len(s)` (number of code points). -/

def pyStrLen (s : String) : ℕ :=
  s.data.length

/-- Membership of `pat` as a contiguous sublist of `l` (Python `pat in s`). -/

def listContainsSub (pat : List Char) : List Char → Bool
  | [] => pat.isEmpty
  | c :: rest => pat.isPrefixOf (c :: rest) || listContainsSub pat rest

/-- Python `pat in s` (substring containment). -/

def strContains (s pat : String) : Bool :=
  listContainsSub pat.data s.data

/-- Python `s.lower()`. -/

def pyLower (s : String) : String :=
  ⟨s.data.map Char.toLower⟩

/-! ### Python float arithmetic on rationals

Timestamps are rationals.  Batteries marks `Rat.sub` irreducible, so the
model subtracts through `mkRat`, which the kernel evaluates; `pySub_eq`
bridges to the ordinary subtraction for symbolic reasoning.
-/

/-- Computable subtraction on `ℚ` (agrees with `a - b`, see `pySub_eq`). -/

def pySub (a b : ℚ) : ℚ :=
  mkRat (a.num * b.den - b.num * a.den) (a.den * b.den)

/-- Python `max(0, int(w))` for `w` the remaining wait: for `w ≥ 0` the
`int` conversion truncates like `floor`, and negative values are clamped
to `0` either way, so `max 0 ⌊w⌋` is an exact model of the result. -/

def pyMaxZeroInt (w : ℚ) : ℤ :=
  max 0 (Rat.floor w)

/-! ### Message table

The entries of `self.messages` used by the modelled code paths
(from the constructor of `XinyueSearchBotPlugin`). -/

def msgEmptyKeyword : String := "❌ 搜索关键词不能为空"

def msgKeywordTooLong : String := "❌ 搜索关键词过长（超过100字符）"

def msgParseSearchFailed : String := "❌ 解析搜索结果失败"

def msgTooManyRequests : String := "❌ 请求过于频繁，请稍后再试"

def msgSearchServiceUnavailable (status : ℕ) : String :=
  "❌ 搜索服务异常，HTTP状态码：" ++ toString status

def msgSearchTimeout : String := "❌ 搜索超时，请稍后重试"

def msgNetworkError : String := "❌ 网络错误，请检查网络连接"

def msgUnknownSearchError (e : String) : String := "❌ 搜索发生未知错误：" ++ e

def msgServiceTemporarilyUnavailable : String := "服务暂时不可用"

def msgNoResourcesFound (kw : String) : String :=
  "未找到相关资源: " ++ kw ++ "\n\n💡 提示：请尝试其他网盘搜索"

def msgLastPage : String := "已经是最后一页了"

def msgFirstPage : String := "已经是第一页了"

def msgNoSearchSession : String := "没有找到搜索会话，请先进行搜索"

def msgInvalidPageNumber (total : ℕ) : String :=
  "❌ 页码超出范围，总页数为" ++ toString total

def msgFormatSearchError : String := "❌ 格式化搜索结果失败"

def msgTransferDisabled : String := "❌ 转存功能未启用"

def msgApiKeyRequired : String := "❌ 需要配置API密钥才能使用转存功能"

def msgNoSearchForTransfer : String := "❌ 没有找到可转存的搜索结果"

def msgSearchExpired : String := "❌ 搜索会话已过期，请重新搜索"

def msgInvalidResourceIndex (n : ℕ) : String :=
  "❌ 无效的资源序号，请输入1-" ++ toString n ++ "之间的数字"

def msgNoValidLink : String := "❌ 该资源没有有效的分享链接"

def msgUnsupportedPan : String := "❌ 暂不支持该网盘的转存功能"

def msgTransferring (title : String) : String :=
  "正在转存《" ++ title ++ "》，请稍候..."

def msgTransferError : String := "❌ 转存失败，请稍后重试"

def msgProcessingFailed : String := "⚠️ 处理失败"

def msgTurningPage : String := "⏳ 正在翻页，请稍候..."

def msgResourceTitleDefault : String := "未知标题"

/-! ### RateLimiter (`main.py` lines 14-52)

`is_allowed` models `RateLimiter.is_allowed`: it first filters the
recorded timestamps to those with `now - t < window_seconds`, rejects if
at least `max_requests` remain, and otherwise appends `now` and accepts.
`get_wait_time` models `RateLimiter.get_wait_time`.  The per-user
timestamp list is passed and returned explicitly. -/

def pruneRequests (wnd now : ℚ) (ts : List ℚ) : List ℚ :=
  ts.filter (fun t => decide (pySub now t < wnd))

def is_allowed (maxRequests : ℕ) (wnd now : ℚ) (ts : List ℚ) : Bool × List ℚ :=
  let kept := pruneRequests wnd now ts
  if maxRequests ≤ kept.length then (false, kept)
  else (true, kept ++ [now])

def get_wait_time (wnd now : ℚ) (ts : List ℚ) : ℤ :=
  match ts with
  | [] => 0
  | t :: rest => pyMaxZeroInt (pySub wnd (pySub now (rest.foldl min t)))

/-- A sequence of `is_allowed` calls at the given times, from the given
timestamp state, returning each call time with its verdict and the final
state. -/

def runLimiter (maxRequests : ℕ) (wnd : ℚ) : List ℚ → List ℚ → List (ℚ × Bool) × List ℚ
  | [], ts => ([], ts)
  | c :: cs, ts =>
    let step := is_allowed maxRequests wnd c ts
    let rest := runLimiter maxRequests wnd cs step.2
    ((c, step.1) :: rest.1, rest.2)

/-- The times of the calls that were admitted. -/

def acceptedTimes (out : List (ℚ × Bool)) : List ℚ :=
  (out.filter (fun p => p.2)).map (fun p => p.1)

/-- Membership of time `s` in the trailing window `(T - wnd, T]`. -/

def inWindow (wnd T s : ℚ) : Bool :=
  decide (pySub T wnd < s) && decide (s ≤ T)

/-! ### JSON values and SSE stream parsing (`_parse_sse_response`, lines 1500-1545)

JSON values as produced by `json.loads` are an inductive type; the
library parser itself is an external collaborator and enters the model
as an explicit `jsonLoads : String → Option JVal` argument (`none`
models a raised `json.JSONDecodeError`). -/

inductive JVal where
  | obj : List (String × JVal) → JVal
  | arr : List JVal → JVal
  | str : String → JVal
  | num : ℤ → JVal
  | bool : Bool → JVal
  | null : JVal

/-- Python `dict` field lookup (`'k' in d` / `d['k']` / `d.get('k')`). -/

def jLookup : List (String × JVal) → String → Option JVal
  | [], _ => none
  | (k, v) :: rest, key => if k = key then some v else jLookup rest key

/-- One step of the combine loop of `_parse_sse_response` (lines
1526-1539): an object with a `url` field is kept whole; otherwise an
object whose `data` field is a list is spliced; any other object is kept
whole; a list is spliced; scalars fall through both `isinstance` checks
and are dropped. -/

def spliceSseValue (v : JVal) : List JVal :=
  match v with
  | .obj fs =>
    if (jLookup fs "url").isSome then [.obj fs]
    else
      match jLookup fs "data" with
      | some (.arr l) => l
      | _ => [.obj fs]
  | .arr l => l
  | _ => []

/-- Lines of the (stripped) body that start with `data:` (line 1505). -/

def extractDataLines (text : String) : List String :=
  (pySplitNl (pyStrip text)).filter (fun line => pyStartsWith line "data:")

/-- Decoding of one `data:` line (lines 1511-1518): strip the 5-character
prefix, skip the empty remainder and the `[DONE]` token, and attempt
JSON parsing, a failure being skipped. -/

def decodeDataLine (jsonLoads : String → Option JVal) (line : String) : Option JVal :=
  let jsonStr := pyStrip (pyDrop line 5)
  if jsonStr = "" then none
  else if jsonStr = "[DONE]" then none
  else jsonLoads jsonStr

/-- `_parse_sse_response` (two passes like the source: collect the
decoded values, return `[]` if none, else fold the combine step). -/

def parse_sse_response (jsonLoads : String → Option JVal) (text : String) : List JVal :=
  let dataLines := extractDataLines text
  let jsonDataList := dataLines.filterMap (decodeDataLine jsonLoads)
  if jsonDataList.isEmpty then []
  else jsonDataList.foldl (fun acc j => acc ++ spliceSseValue j) []

/-- The same pipeline starting from an already-split line list (used to
state order-preservation and robustness at the granularity of lines). -/

def parseSseLines (jsonLoads : String → Option JVal) (lines : List String) : List JVal :=
  let dataLines := lines.filter (fun line => pyStartsWith line "data:")
  let jsonDataList := dataLines.filterMap (decodeDataLine jsonLoads)
  if jsonDataList.isEmpty then []
  else jsonDataList.foldl (fun acc j => acc ++ spliceSseValue j) []

/-- Per-line contribution to the final result list. -/

def sseLineContribution (jsonLoads : String → Option JVal) (line : String) : List JVal :=
  if pyStartsWith line "data:" then (decodeDataLine jsonLoads line).elim [] spliceSseValue
  else []

/-! ### Python truthiness and length on JSON values -/

/-- Python truthiness (`if not x`) of a JSON value. -/

def pyTruthy : JVal → Bool
  | .obj fs => !fs.isEmpty
  | .arr l => !l.isEmpty
  | .str s => !s.data.isEmpty
  | .num n => !(decide (n = 0))
  | .bool b => b
  | .null => false

/-- Python `len(x)` on a JSON value (`none` models a raised `TypeError`). -/

def pyLen : JVal → Option ℕ
  | .obj fs => some fs.length
  | .arr l => some l.length
  | .str s => some s.data.length
  | _ => none

/-- Python `str(x)` / f-string interpolation of a JSON value (container
values get a placeholder rendering; no theorem depends on it). -/

def pyStr : JVal → String
  | .str s => s
  | .num n => toString n
  | .bool true => "True"
  | .bool false => "False"
  | .null => "None"
  | .obj _ => "<dict>"
  | .arr _ => "<list>"

/-- Python `d.get(k, dflt)` coerced through an f-string, as used for the
`title` fields. -/

def jGetStrD (fs : List (String × JVal)) (k : String) (dflt : String) : String :=
  match jLookup fs k with
  | some v => pyStr v
  | none => dflt

/-! ### Sessions (`self.user_sessions`, pagination state)

A stored session is the dict built in `_search_resources` (lines
986-1011).  `results` holds either the parsed JSON value or the raw SSE
text, exactly like the source. -/

inductive PyData where
  | json : JVal → PyData
  | sse : String → PyData

structure Session where
  results : PyData
  keyword : String
  isFullNetwork : Bool
  panType : ℕ
  currentPage : ℕ
  totalPages : ℕ
  isSse : Bool

abbrev SessMap := String → Option Session

def setSession (m : SessMap) (key : String) (s : Session) : SessMap :=
  fun k => if k = key then some s else m k

def setCurrentPage (m : SessMap) (key : String) (p : ℕ) : SessMap :=
  fun k => if k = key then (m k).map (fun s => { s with currentPage := p }) else m k

def setTotalPages (m : SessMap) (key : String) (tp : ℕ) : SessMap :=
  fun k => if k = key then (m k).map (fun s => { s with totalPages := tp }) else m k

/-- Python truthiness of the stored `results` value. -/

def pyDataTruthy : PyData → Bool
  | .json v => pyTruthy v
  | .sse t => !t.data.isEmpty

/-- The inline SSE re-parse of `_format_search_results` (lines
1205-1240): same pipeline as `_parse_sse_response` but without the
early return on the empty decoded list (the fold then yields `[]`
anyway). -/

def sseInlineCombine (jsonLoads : String → Option JVal) (text : String) : List JVal :=
  ((extractDataLines text).filterMap (decodeDataLine jsonLoads)).foldl
    (fun acc j => acc ++ spliceSseValue j) []

/-- The `result_list` extraction of `_format_search_results` (lines
1182-1243): a list is taken as-is; a dict is probed for `result`, then
`data`, then `list` (the later `code == 0` arm is shadowed by the `data`
arm); a string is re-parsed as SSE when the stored session is marked
`is_sse`, else the initial `[]` survives; any other value leads to the
same outcome as an empty list. -/

def formatExtract (jsonLoads : String → Option JVal) (m : SessMap) (key : String) :
    PyData → JVal
  | .json (.arr l) => .arr l
  | .json (.obj fs) =>
    match jLookup fs "result" with
    | some v => v
    | none =>
      match jLookup fs "data" with
      | some v => v
      | none =>
        match jLookup fs "list" with
        | some v => v
        | none => .arr []
  | .json (.str t) =>
    match m key with
    | some sess => if sess.isSse then .arr (sseInlineCombine jsonLoads t) else .arr []
    | none => .arr []
  | .json _ => .arr []
  | .sse t =>
    match m key with
    | some sess => if sess.isSse then .arr (sseInlineCombine jsonLoads t) else .arr []
    | none => .arr []

/-- Plugin configuration values used by the modelled paths. -/

structure PluginCfg where
  resultsPerPage : ℕ
  enablePagination : Bool
  enableTransfer : Bool
  apiKey : String
  baseUrl : String

/-- Join rendered lines like `'\n\n'.join(...)`. -/

def joinSep (sep : String) : List String → String
  | [] => ""
  | x :: xs => xs.foldl (fun acc s => acc ++ sep ++ s) x

/-- The page text assembled by `_format_search_results` (lines
1272-1287). -/

def buildSearchResultText (cfg : PluginCfg) (totalResults page totalPages : ℕ)
    (lines : List String) : String :=
  "🔍 共找到 " ++ toString totalResults ++ " 个相关资源：" ++ "\n\n" ++ joinSep "\n\n" lines
    ++ "\n\n" ++ "──────────────" ++ "\n" ++ "链接有效期5分钟，过期请重搜" ++ "\n"
    ++ "──────────────" ++ "\n" ++ "更多资源请上 " ++ cfg.baseUrl ++ "\n" ++ "──────────────"
    ++ (if cfg.enablePagination then
          "\n" ++ "📄 第 " ++ toString page ++ "/" ++ toString totalPages ++ " 页"
            ++ "\n" ++ "💡 回复“上/下”或“0/1”翻页"
        else "")

/-- `_format_search_results` (lines 1175-1290).  The rendering of the
page slice (`_transfer_and_format_results`, an awaited concurrent
fan-out over the network) enters as the explicit `transferRender`
argument.  Non-list extractions reproduce the observable source
behaviour: a falsy value yields the no-results message; a sized truthy
value has its total-page count stored before slicing raises and the
handler returns the format-error message; an unsized value raises at
`len()` before any store. -/

def format_search_results (jsonLoads : String → Option JVal)
    (transferRender : List JVal → ℕ → List String) (cfg : PluginCfg)
    (m : SessMap) (key : String) (data : PyData) (keyword : String) (page : ℕ) :
    String × SessMap :=
  match formatExtract jsonLoads m key data with
  | .arr l =>
    if l.isEmpty then (msgNoResourcesFound keyword, m)
    else
      let pageSize := cfg.resultsPerPage
      let totalResults := l.length
      let totalPages := (totalResults + pageSize - 1) / pageSize
      let m' := setTotalPages m key totalPages
      if page < 1 ∨ totalPages < page then (msgInvalidPageNumber totalPages, m')
      else
        let startIndex := (page - 1) * pageSize
        let endIndex := min (startIndex + pageSize) totalResults
        let pageResults := (l.drop startIndex).take (endIndex - startIndex)
        (buildSearchResultText cfg totalResults page totalPages
          (transferRender pageResults startIndex), m')
  | v =>
    if pyTruthy v = false then (msgNoResourcesFound keyword, m)
    else
      match pyLen v with
      | some n =>
        (msgFormatSearchError,
          setTotalPages m key ((n + cfg.resultsPerPage - 1) / cfg.resultsPerPage))
      | none => (msgFormatSearchError, m)

/-! ### The search retry loop (`_search_resources`, lines 932-1049) -/

/-- Body of a 200 response: an SSE stream, a JSON document, or a body on
which `response.json()` raises. -/

inductive RespBody where
  | sse (text : String)
  | jsonOk (v : JVal)
  | jsonBad

/-- Classified outcome of one HTTP attempt (status codes, timeout,
transport error, or an unexpected exception). -/

inductive SearchOutcome where
  | ok (body : RespBody)
  | notFound
  | tooMany
  | otherStatus (code : ℕ)
  | timedOut
  | clientError
  | unknownErr (e : String)

/-- Result of `_search_resources`: the returned message, the session
map, the number of loop iterations (one HTTP attempt each), and the
sleeps performed between attempts, in seconds and in order. -/

structure SearchRes where
  msg : String
  sessions : SessMap
  attempts : ℕ
  sleeps : List ℕ

/-- The 200 branch (lines 977-1016): dispatch on the content type,
store a fresh session (with `total_pages` initialised to 1), format;
a `response.json()` failure returns the parse-failed message without
touching the session map. -/

def handle200 (jsonLoads : String → Option JVal)
    (transferRender : List JVal → ℕ → List String) (cfg : PluginCfg)
    (m : SessMap) (key keyword : String) (isFullNetwork : Bool) (panType page : ℕ)
    (body : RespBody) : String × SessMap :=
  match body with
  | .sse text =>
    let parsed := parse_sse_response jsonLoads text
    let m' := setSession m key ⟨.sse text, keyword, isFullNetwork, panType, page, 1, true⟩
    format_search_results jsonLoads transferRender cfg m' key (.json (.arr parsed)) keyword page
  | .jsonOk v =>
    let m' := setSession m key ⟨.json v, keyword, isFullNetwork, panType, page, 1, false⟩
    format_search_results jsonLoads transferRender cfg m' key (.json v) keyword page
  | .jsonBad => (msgParseSearchFailed, m)

/-- The retry loop of `_search_resources` (lines 942-1049), with the
outcome of attempt number `i` (0-based) given by `outcomes i`:
200/404/parse-failure/unknown-exception return immediately; 429 and
timeout and transport errors sleep `2 ^ retry_count` (after the
increment) and retry; other statuses sleep 1 second and retry;
exhausting the retries returns the per-branch message, and falling out
of the loop returns the temporarily-unavailable message. -/

def search_loop (jsonLoads : String → Option JVal)
    (transferRender : List JVal → ℕ → List String) (cfg : PluginCfg)
    (maxRetries : ℕ) (outcomes : ℕ → SearchOutcome) (m : SessMap)
    (key keyword : String) (isFullNetwork : Bool) (panType page : ℕ)
    (retryCount : ℕ) : SearchRes :=
  if retryCount < maxRetries then
    match outcomes retryCount with
    | .ok body =>
      let r := handle200 jsonLoads transferRender cfg m key keyword isFullNetwork panType page body
      ⟨r.1, r.2, 1, []⟩
    | .notFound => ⟨msgNoResourcesFound keyword, m, 1, []⟩
    | .tooMany =>
      if maxRetries ≤ retryCount + 1 then ⟨msgTooManyRequests, m, 1, []⟩
      else
        let r := search_loop jsonLoads transferRender cfg maxRetries outcomes m key keyword
          isFullNetwork panType page (retryCount + 1)
        ⟨r.msg, r.sessions, r.attempts + 1, 2 ^ (retryCount + 1) :: r.sleeps⟩
    | .otherStatus code =>
      if maxRetries ≤ retryCount + 1 then ⟨msgSearchServiceUnavailable code, m, 1, []⟩
      else
        let r := search_loop jsonLoads transferRender cfg maxRetries outcomes m key keyword
          isFullNetwork panType page (retryCount + 1)
        ⟨r.msg, r.sessions, r.attempts + 1, 1 :: r.sleeps⟩
    | .timedOut =>
      if maxRetries ≤ retryCount + 1 then ⟨msgSearchTimeout, m, 1, []⟩
      else
        let r := search_loop jsonLoads transferRender cfg maxRetries outcomes m key keyword
          isFullNetwork panType page (retryCount + 1)
        ⟨r.msg, r.sessions, r.attempts + 1, 2 ^ (retryCount + 1) :: r.sleeps⟩
    | .clientError =>
      if maxRetries ≤ retryCount + 1 then ⟨msgNetworkError, m, 1, []⟩
      else
        let r := search_loop jsonLoads transferRender cfg maxRetries outcomes m key keyword
          isFullNetwork panType page (retryCount + 1)
        ⟨r.msg, r.sessions, r.attempts + 1, 2 ^ (retryCount + 1) :: r.sleeps⟩
    | .unknownErr e => ⟨msgUnknownSearchError e, m, 1, []⟩
  else ⟨msgServiceTemporarilyUnavailable, m, 0, []⟩
termination_by maxRetries - retryCount
decreasing_by all_goals omega

/-- `_search_resources` (lines 932-1049): keyword validation happens
before the loop, hence before any network attempt. -/

def search_resources (jsonLoads : String → Option JVal)
    (transferRender : List JVal → ℕ → List String) (cfg : PluginCfg)
    (maxRetries : ℕ) (outcomes : ℕ → SearchOutcome) (m : SessMap)
    (key keyword : String) (isFullNetwork : Bool) (panType : ℕ) : SearchRes :=
  if keyword = "" ∨ pyStrip keyword = "" then ⟨msgEmptyKeyword, m, 0, []⟩
  else if 50 < pyStrLen keyword then ⟨msgKeywordTooLong, m, 0, []⟩
  else search_loop jsonLoads transferRender cfg maxRetries outcomes m key keyword
    isFullNetwork panType 1 0

/-! ### Page navigation handlers (lines 621-821)

The four handlers share one body; the only behavioural difference is
that `previous_page_simple` (input `上`) answers the no-session case
with a message (line 817-818) where the other three silently return. -/

def nextPageCore (jsonLoads : String → Option JVal)
    (transferRender : List JVal → ℕ → List String) (cfg : PluginCfg)
    (m : SessMap) (key : String) : List String × SessMap :=
  if cfg.enablePagination = false then ([], m)
  else
    match m key with
    | none => ([], m)
    | some s =>
      if pyDataTruthy s.results = false then ([], m)
      else if s.totalPages ≤ 1 then ([], m)
      else if s.currentPage < s.totalPages then
        let np := s.currentPage + 1
        let m' := setCurrentPage m key np
        let r := format_search_results jsonLoads transferRender cfg m' key s.results s.keyword np
        ([msgTurningPage, r.1], r.2)
      else ([msgLastPage], m)

def prevPageCore (jsonLoads : String → Option JVal)
    (transferRender : List JVal → ℕ → List String) (cfg : PluginCfg)
    (replyOnNoSession : Bool) (m : SessMap) (key : String) : List String × SessMap :=
  if cfg.enablePagination = false then ([], m)
  else
    match m key with
    | none => if replyOnNoSession then ([msgNoSearchSession], m) else ([], m)
    | some s =>
      if pyDataTruthy s.results = false then ([], m)
      else if s.totalPages ≤ 1 then ([], m)
      else if 1 < s.currentPage then
        let pp := s.currentPage - 1
        let m' := setCurrentPage m key pp
        let r := format_search_results jsonLoads transferRender cfg m' key s.results s.keyword pp
        ([msgTurningPage, r.1], r.2)
      else ([msgFirstPage], m)

/-- Handler for input `1` (lines 621-670). -/

def next_page (jsonLoads : String → Option JVal)
    (transferRender : List JVal → ℕ → List String) (cfg : PluginCfg)
    (m : SessMap) (key : String) : List String × SessMap :=
  nextPageCore jsonLoads transferRender cfg m key

/-- Handler for input `下` (lines 722-770). -/

def next_page_simple (jsonLoads : String → Option JVal)
    (transferRender : List JVal → ℕ → List String) (cfg : PluginCfg)
    (m : SessMap) (key : String) : List String × SessMap :=
  nextPageCore jsonLoads transferRender cfg m key

/-- Handler for input `0` (lines 672-720). -/

def previous_page (jsonLoads : String → Option JVal)
    (transferRender : List JVal → ℕ → List String) (cfg : PluginCfg)
    (m : SessMap) (key : String) : List String × SessMap :=
  prevPageCore jsonLoads transferRender cfg false m key

/-- Handler for input `上` (lines 772-821). -/

def previous_page_simple (jsonLoads : String → Option JVal)
    (transferRender : List JVal → ℕ → List String) (cfg : PluginCfg)
    (m : SessMap) (key : String) : List String × SessMap :=
  prevPageCore jsonLoads transferRender cfg true m key

/-! ### Session invariants (C4) and pagination round trips (C5) -/

/-- The result list a stored session denotes, independent of the map it
sits in (`formatExtract` consults the map only for the `is_sse` flag of
this very session). -/

def sessionExtract (jsonLoads : String → Option JVal) (s : Session) : JVal :=
  formatExtract jsonLoads (fun _ => some s) "" s.results

/-- The total-page count `_format_search_results` computes and stores
for a session: `ceil(len/pageSize)` when the extracted value is truthy
and sized, and the initial value 1 otherwise (the function returns
before the update in those cases). -/

def expectedTotalPages (jsonLoads : String → Option JVal) (pageSize : ℕ) (s : Session) : ℕ :=
  if pyTruthy (sessionExtract jsonLoads s) then
    match pyLen (sessionExtract jsonLoads s) with
    | some n => (n + pageSize - 1) / pageSize
    | none => 1
  else 1

/-- The pagination invariant of one stored session. -/

def SessionInv (jsonLoads : String → Option JVal) (pageSize : ℕ) (s : Session) : Prop :=
  1 ≤ s.currentPage ∧ s.currentPage ≤ s.totalPages ∧
    s.totalPages = expectedTotalPages jsonLoads pageSize s

/-- Session maps reachable from the empty map through the
session-creating and session-mutating operations: a 200 search response
(stored at page 1, as every caller does), and the four page-navigation
handlers. -/

inductive ReachableSessions (jsonLoads : String → Option JVal)
    (transferRender : List JVal → ℕ → List String) (cfg : PluginCfg) : SessMap → Prop where
  | init : ReachableSessions jsonLoads transferRender cfg (fun _ => none)
  | search (m : SessMap) (key keyword : String) (isFullNetwork : Bool) (panType : ℕ)
      (body : RespBody) :
      ReachableSessions jsonLoads transferRender cfg m →
      ReachableSessions jsonLoads transferRender cfg
        (handle200 jsonLoads transferRender cfg m key keyword isFullNetwork panType 1 body).2
  | next (m : SessMap) (key : String) :
      ReachableSessions jsonLoads transferRender cfg m →
      ReachableSessions jsonLoads transferRender cfg
        (nextPageCore jsonLoads transferRender cfg m key).2
  | prev (m : SessMap) (key : String) (b : Bool) :
      ReachableSessions jsonLoads transferRender cfg m →
      ReachableSessions jsonLoads transferRender cfg
        (prevPageCore jsonLoads transferRender cfg b m key).2

/-- Repeated application of the forward page handler. -/

def iterNextPage (jsonLoads : String → Option JVal)
    (transferRender : List JVal → ℕ → List String) (cfg : PluginCfg)
    (key : String) : ℕ → SessMap → SessMap
  | 0, m => m
  | k + 1, m => iterNextPage jsonLoads transferRender cfg key k
      (nextPageCore jsonLoads transferRender cfg m key).2

/-! ### Concurrent transfer rendering (`_transfer_and_format_results`,
lines 1292-1403)

The network outcome of each per-record transfer task enters as an
oracle indexed by the record's position: success with a new title and
share link, failure (either an unsuccessful `_transfer_and_share` result
or an exception caught inside `_transfer_single_resource`, which render
the same line), or a task-level exception surfacing to `asyncio.gather`
(`return_exceptions=True` keeps it in place, order preserved). -/

inductive GatherOutcome where
  | ok (title shareUrl : String)
  | fail
  | raised

/-- `_identify_pan_type` (lines 1385-1403): ordered domain-substring
table over the lowercased URL, defaulting to `quark`. -/

def identify_pan_type (url : String) : String :=
  let lowerUrl := pyLower url
  if strContains lowerUrl "pan.quark.cn" then "quark"
  else if strContains lowerUrl "www.alipan.com" then "ali"
  else if strContains lowerUrl "www.aliyundrive.com" then "ali"
  else if strContains lowerUrl "pan.baidu.com" then "baidu"
  else if strContains lowerUrl "drive.uc.cn" then "uc"
  else if strContains lowerUrl "fast.uc.cn" then "uc"
  else if strContains lowerUrl "pan.xunlei.com" then "xunlei"
  else "quark"

/-- The pan types given a transfer task (line 1319). -/

def transferSupportedTypes : List String := ["quark", "baidu", "uc", "xunlei", "ali"]

/-- `_format_single_result` (lines 1365-1369). -/

def format_single_result (gi : ℕ) (title url : String) : String :=
  if url.data.isEmpty = false then toString gi ++ ". " ++ title ++ "\n链接: " ++ url
  else toString gi ++ ". " ++ title

/-- The success line of `_transfer_single_resource` (line 1356). -/

def transfer_success_line (gi : ℕ) (newTitle newUrl : String) : String :=
  toString gi ++ ". " ++ newTitle ++ "\n✅ 链接: " ++ newUrl

/-- The failure line of `_transfer_single_resource` (lines 1359/1363):
it mentions the index and the original title but takes no URL. -/

def transfer_failure_line (gi : ℕ) (title : String) : String :=
  toString gi ++ ". " ++ title ++ "\n❌ 转存失败，请尝试搜索其他网盘"

/-- The line produced for the record at position `i` (lines 1312-1339):
`None` models an exception thrown while *building* the task (an `.get`
on a non-dict record, or `.lower()` on a truthy non-string URL), which
aborts the whole page render. -/

def renderRecord (oracle : ℕ → GatherOutcome) (startIndex i : ℕ) (item : JVal) :
    Option String :=
  match item with
  | .obj fs =>
    let gi := startIndex + i + 1
    let title := jGetStrD fs "title" msgResourceTitleDefault
    match jLookup fs "url" with
    | some (.str url) =>
      if url.data.isEmpty then some (format_single_result gi title "")
      else
        if transferSupportedTypes.contains (identify_pan_type url) then
          some (match oracle i with
            | .raised => msgProcessingFailed
            | .ok t u => transfer_success_line gi t u
            | .fail => transfer_failure_line gi title)
        else some (format_single_result gi title url)
    | some v => if pyTruthy v then none else some (format_single_result gi title "")
    | none => some (format_single_result gi title "")
  | _ => none

/-- The enumerate-create-gather pipeline, producing one line per record
in index order (`asyncio.gather` preserves input order). -/

def transferGather (oracle : ℕ → GatherOutcome) (startIndex : ℕ) :
    ℕ → List JVal → Option (List String)
  | _, [] => some []
  | i, item :: rest =>
    match renderRecord oracle startIndex i item with
    | none => none
    | some line =>
      match transferGather oracle startIndex (i + 1) rest with
      | none => none
      | some lines => some (line :: lines)

/-- `_format_results_without_transfer` (lines 1371-1383). -/

def format_results_without_transfer (startIndex : ℕ) :
    ℕ → List JVal → Option (List String)
  | _, [] => some []
  | i, item :: rest =>
    match item with
    | .obj fs =>
      let gi := startIndex + i + 1
      let title := jGetStrD fs "title" msgResourceTitleDefault
      let url := (jLookup fs "url").getD (.str "")
      let line :=
        if pyTruthy url then toString gi ++ ". " ++ title ++ "\n🔗 链接: " ++ pyStr url
        else toString gi ++ ". " ++ title
      match format_results_without_transfer startIndex (i + 1) rest with
      | none => none
      | some lines => some (line :: lines)
    | _ => none

/-- `_transfer_and_format_results` (lines 1292-1341). -/

def transfer_and_format_results (enableTransfer : Bool) (apiKey : String)
    (oracle : ℕ → GatherOutcome) (results : List JVal) (startIndex : ℕ) :
    Option (List String) :=
  if enableTransfer = false || apiKey.data.isEmpty then
    format_results_without_transfer startIndex 0 results
  else transferGather oracle startIndex 0 results

/-- A record whose `url` field, if present and truthy, is a string (the
source would raise `AttributeError` on `.lower()` otherwise). -/

def recordUrlOk (fs : List (String × JVal)) : Bool :=
  match jLookup fs "url" with
  | some (.str _) => true
  | some v => !pyTruthy v
  | none => true

/-! ### Credential ("cookie") cache (`_prefetch_cookies`,
`_get_actual_cookie_value`, `_get_cookie_from_database`,
`_transfer_and_share`, lines 1405-1625)

The cache maps a pan type to the cookie value and the timestamp at
which it was stored.  Network behaviour enters through `CookieEnv`
(whether the `GetCookie` endpoint answers 200, and which cookie value a
full fetch yields, `""` modelling every failure path of
`_get_actual_cookie_value`), and every credential request and transfer
POST is recorded in an explicit trace. -/

abbrev CookieCache := String → Option (String × ℚ)

def cacheSet (c : CookieCache) (pan v : String) (ts : ℚ) : CookieCache :=
  fun k => if k = pan then some (v, ts) else c k

inductive NetCall where
  | cookieProbe (pan : String)
  | cookieFetch (pan : String)
  | transferPost
deriving DecidableEq

structure CookieEnv where
  probeOk : String → Bool
  fetchValue : String → String

def apiEndpoints : List String := ["quark", "baidu", "uc", "xunlei", "ali"]

/-- The fetch path of `_get_actual_cookie_value` (lines 1425-1466):
endpoint check, one GET, and caching of a nonempty value under the
current time. -/

def get_actual_cookie_fetch (env : CookieEnv) (now : ℚ) (cache : CookieCache)
    (pan : String) : String × CookieCache × List NetCall :=
  if apiEndpoints.contains pan = false then ("", cache, [])
  else
    let v := env.fetchValue pan
    if v.data.isEmpty then ("", cache, [.cookieFetch pan])
    else (v, cacheSet cache pan v now, [.cookieFetch pan])

/-- `_get_actual_cookie_value` (lines 1418-1466): a cache entry younger
than 300 seconds is returned with no network traffic, anything else
goes through the fetch path. -/

def get_actual_cookie_value (env : CookieEnv) (now : ℚ) (cache : CookieCache)
    (pan : String) : String × CookieCache × List NetCall :=
  match cache pan with
  | some (v, ts) =>
    if pySub now ts < 300 then (v, cache, [])
    else get_actual_cookie_fetch env now cache pan
  | none => get_actual_cookie_fetch env now cache pan

/-- `_get_cookie_from_database` (lines 1468-1498): the liveness probe,
reporting only whether the endpoint answered 200. -/

def get_cookie_from_database (env : CookieEnv) (pan : String) : String × List NetCall :=
  if apiEndpoints.contains pan = false then ("", [])
  else if env.probeOk pan then ("API_SUCCESS", [.cookieProbe pan])
  else ("", [.cookieProbe pan])

/-- The stale branch of the cookie resolution in `_transfer_and_share`
(lines 1563-1574): probe first, and only on probe success fetch the
actual value. -/

def resolveStaleCookie (env : CookieEnv) (now : ℚ) (cache : CookieCache) (pan : String) :
    Option String × CookieCache × List NetCall :=
  let probe := get_cookie_from_database env pan
  if probe.1.data.isEmpty then (none, cache, probe.2)
  else
    let fetched := get_actual_cookie_value env now cache pan
    if fetched.1.data.isEmpty then (none, fetched.2.1, probe.2 ++ fetched.2.2)
    else (some fetched.1, fetched.2.1, probe.2 ++ fetched.2.2)

/-- The cookie resolution of `_transfer_and_share` (lines 1559-1574). -/

def resolveTransferCookie (env : CookieEnv) (now : ℚ) (cache : CookieCache) (pan : String) :
    Option String × CookieCache × List NetCall :=
  match cache pan with
  | some (v, ts) =>
    if pySub now ts < 300 then (some v, cache, [])
    else resolveStaleCookie env now cache pan
  | none => resolveStaleCookie env now cache pan

inductive TransferApiOutcome where
  | ok (title shareUrl : String)
  | apiFail (message : String)
  | httpStatus (code : ℕ)
  | timedOut

inductive TransferCallResult where
  | success (title shareUrl : String)
  | failure (err : String)

def msgApiKeyNotConfigured : String := "❌ API密钥未配置，请联系管理员配置api_key"

def msgCookieExpired : String := "抱歉，cookie过期，请联系群主！"

def msgTransferServiceError (status : ℕ) : String :=
  "❌ 转存服务异常，HTTP状态码：" ++ toString status

def msgTransferTimeout : String := "❌ 转存超时，请稍后重试"

/-- `_transfer_and_share` (lines 1547-1625): API-key check, cookie
resolution, and one transfer POST whose classified outcome is the
oracle `transferApi`. -/

def transfer_and_share (env : CookieEnv) (transferApi : TransferApiOutcome)
    (apiKey : String) (now : ℚ) (cache : CookieCache) (url code : String) :
    TransferCallResult × CookieCache × List NetCall :=
  if apiKey.data.isEmpty then (.failure msgApiKeyNotConfigured, cache, [])
  else
    let pan := identify_pan_type url
    match resolveTransferCookie env now cache pan with
    | (none, cache', trace) => (.failure msgCookieExpired, cache', trace)
    | (some _, cache', trace) =>
      match transferApi with
      | .ok title shareUrl => (.success title shareUrl, cache', trace ++ [.transferPost])
      | .apiFail message => (.failure message, cache', trace ++ [.transferPost])
      | .httpStatus c => (.failure (msgTransferServiceError c), cache', trace ++ [.transferPost])
      | .timedOut => (.failure msgTransferTimeout, cache', trace ++ [.transferPost])

/-! ### The `转存N` transfer command handler (`transfer_resource`,
lines 823-930)

The handler body evaluates `re.search` (line 841), but the module never
imports `re` (lines 1-11 bind only the names below), so Python raises a
`NameError` there, which the surrounding `except Exception` (lines
928-930) converts into the generic transfer-error message.  The model
therefore guards the rest of the body on `re` being a bound module
name; the guarded body (`transfer_resource_body`) embeds the remaining
source lines faithfully so that its own index arithmetic can be
examined. -/

/-- The names bound at module level by the imports of `main.py`
(lines 1-11) and its two top-level definitions. -/

def moduleTopLevelNames : List String :=
  ["asyncio", "aiohttp", "yaml", "os", "time", "urlparse", "parse_qs", "filter",
   "AstrMessageEvent", "MessageEventResult", "Context", "Star", "register", "logger",
   "Dict", "List", "defaultdict", "RateLimiter", "XinyueSearchBotPlugin"]

/-- The hardcoded transferable-domain list (lines 900-901). -/

def supportedTransferDomains : List String :=
  ["pan.quark.cn", "www.alipan.com", "www.aliyundrive.com", "pan.baidu.com",
   "drive.uc.cn", "fast.uc.cn", "pan.xunlei.com"]

/-- The `result_list` extraction of `transfer_resource` (lines
858-874): SSE text is re-parsed when the session is marked `is_sse`,
dicts are probed for `result`/`data`/`list`, lists pass through, and
anything else leaves the initial `[]`. -/

def transferExtract (jsonLoads : String → Option JVal) (s : Session) : JVal :=
  match s.results with
  | .sse t => if s.isSse then .arr (parse_sse_response jsonLoads t) else .arr []
  | .json (.str t) => if s.isSse then .arr (parse_sse_response jsonLoads t) else .arr []
  | .json (.obj fs) =>
    match jLookup fs "result" with
    | some v => v
    | none =>
      match jLookup fs "data" with
      | some v => v
      | none =>
        match jLookup fs "list" with
        | some v => v
        | none => .arr []
  | .json (.arr l) => .arr l
  | .json _ => .arr []

/-- The body of `transfer_resource` after the `re.search` line (lines
846-926), as it would run if `re` were importable: session and
result-list checks, the bounds check `1 ≤ index ≤ len(result_list)`
(lines 885-887), the page-offset access
`result_list[start_index + index - 1]` with `start_index =
(current_page - 1) * 5` (lines 881-890, an out-of-range access raising
`IndexError`, caught into the generic transfer error), the URL and
domain checks, and the transfer call.  Results are the yielded
messages, the cookie cache, and the network trace. -/

def transfer_resource_body (jsonLoads : String → Option JVal) (env : CookieEnv)
    (transferApi : TransferApiOutcome) (apiKey : String) (now : ℚ)
    (cache : CookieCache) (m : SessMap) (key : String) (resourceIndex : ℕ) :
    List String × CookieCache × List NetCall :=
  match m key with
  | none => ([msgNoSearchForTransfer], cache, [])
  | some s =>
    let startIndex := (s.currentPage - 1) * 5
    let rl := transferExtract jsonLoads s
    if pyTruthy rl = false then ([msgSearchExpired], cache, [])
    else
      match pyLen rl with
      | none => ([msgTransferError], cache, [])
      | some n =>
        if resourceIndex < 1 ∨ n < resourceIndex then
          ([msgInvalidResourceIndex n], cache, [])
        else
          match rl with
          | .arr l =>
            match l.get? (startIndex + resourceIndex - 1) with
            | none => ([msgTransferError], cache, [])
            | some target =>
              match target with
              | .obj fs =>
                match jLookup fs "url" with
                | some (.str url) =>
                  if url.data.isEmpty then ([msgNoValidLink], cache, [])
                  else
                    let lowerUrl := pyLower url
                    if (supportedTransferDomains.any (fun d => strContains lowerUrl d))
                        = false then
                      ([msgUnsupportedPan], cache, [])
                    else
                      let title := jGetStrD fs "title" msgResourceTitleDefault
                      let r := transfer_and_share env transferApi apiKey now cache url ""
                      match r.1 with
                      | .success t su =>
                        ([msgTransferring title,
                          "✅ 转存成功\n资源标题：" ++ t ++ "\n分享链接：" ++ su],
                          r.2.1, r.2.2)
                      | .failure e =>
                        ([msgTransferring title, "❌ 转存失败\n" ++ e], r.2.1, r.2.2)
                | some v =>
                  if pyTruthy v then ([msgTransferError], cache, [])
                  else ([msgNoValidLink], cache, [])
                | none => ([msgNoValidLink], cache, [])
              | _ => ([msgTransferError], cache, [])
          | _ => ([msgTransferError], cache, [])

/-- `transfer_resource` (lines 823-930): feature and API-key checks,
then the `re.search` call; with `re` unbound the `NameError` falls to
the catch-all and yields the generic transfer error. -/

def transfer_resource (jsonLoads : String → Option JVal) (env : CookieEnv)
    (transferApi : TransferApiOutcome) (cfg : PluginCfg) (now : ℚ)
    (cache : CookieCache) (m : SessMap) (key : String) (resourceIndex : ℕ) :
    List String × CookieCache × List NetCall :=
  if cfg.enableTransfer = false then ([msgTransferDisabled], cache, [])
  else if cfg.apiKey.data.isEmpty then ([msgApiKeyRequired], cache, [])
  else if moduleTopLevelNames.contains "re" then
    transfer_resource_body jsonLoads env transferApi cfg.apiKey now cache m key resourceIndex
  else ([msgTransferError], cache, [])

/-! ### Properties and claim theorems -/

theorem pySub_eq (a b : ℚ) : pySub a b = a - b := by
  have ha : ((a.den : ℚ)) ≠ 0 := by exact_mod_cast a.den_ne_zero
  have hb : ((b.den : ℚ)) ≠ 0 := by exact_mod_cast b.den_ne_zero
  have ha' : (a.num : ℚ) = a * a.den := (div_eq_iff ha).mp (Rat.num_div_den a)
  have hb' : (b.num : ℚ) = b * b.den := (div_eq_iff hb).mp (Rat.num_div_den b)
  rw [pySub, Rat.mkRat_eq_div]
  push_cast
  rw [ha', hb', div_eq_iff (by positivity)]
  ring

theorem pruneRequests_eq (wnd now : ℚ) (ts : List ℚ) :
    pruneRequests wnd now ts = ts.filter (fun t => decide (now - t < wnd)) := by
  simp [pruneRequests, pySub_eq]

theorem inWindow_iff (wnd T s : ℚ) : inWindow wnd T s = true ↔ (T - wnd < s ∧ s ≤ T) := by
  simp [inWindow, pySub_eq]

theorem length_filter_mono {α : Type} (l : List α) (p q : α → Bool)
    (h : ∀ a ∈ l, p a = true → q a = true) :
    (l.filter p).length ≤ (l.filter q).length := by
  induction l with
  | nil => simp
  | cons x xs ih =>
    have hx := h x (by simp)
    have ihx : (xs.filter p).length ≤ (xs.filter q).length :=
      ih (fun a ha => h a (by simp [ha]))
    by_cases hp : p x = true
    · simp [List.filter_cons, hp, hx hp]
      omega
    · simp only [List.filter_cons]
      rw [if_neg (by simp_all)]
      cases hq : q x <;> simp <;> omega

/-- Inductive invariant for the sliding-window cap.  `A` is the list of
previously admitted times (all `≤ now`), the current timestamp state is
exactly the members of `A` still inside the window anchored at `now`, and
`A` satisfies the cap in every trailing window.  Then every extension of
the run keeps the cap. -/
theorem runLimiter_cap_aux (N : ℕ) (wnd : ℚ) (hw : 0 < wnd) :
    ∀ (cs : List ℚ), cs.Sorted (· ≤ ·) →
    ∀ (A ts : List ℚ) (now : ℚ),
      (∀ c ∈ cs, now ≤ c) →
      (∀ a ∈ A, a ≤ now) →
      ts = A.filter (fun s => decide (now - s < wnd)) →
      (∀ T, (A.filter (inWindow wnd T)).length ≤ N) →
      ∀ T, ((A ++ acceptedTimes (runLimiter N wnd cs ts).1).filter (inWindow wnd T)).length ≤ N := by
  intro cs
  induction cs with
  | nil =>
    intro _ A ts now _ _ _ hcap T
    simpa [runLimiter, acceptedTimes] using hcap T
  | cons c cs ih =>
    intro hsort A ts now hle hA hts hcap
    have hnc : now ≤ c := hle c (by simp)
    have hcs : ∀ x ∈ cs, c ≤ x := List.rel_of_sorted_cons hsort
    have hsort' : cs.Sorted (· ≤ ·) := hsort.of_cons
    have key : pruneRequests wnd c ts = A.filter (fun s => decide (c - s < wnd)) := by
      rw [hts, pruneRequests_eq, List.filter_filter]
      refine List.filter_congr ?_
      intro a _
      by_cases h : c - a < wnd
      · have h2 : now - a < wnd := by linarith
        simp [h, h2]
      · simp [h]
    by_cases hfull : N ≤ (pruneRequests wnd c ts).length
    · -- rejected: state is the pruned list, `A` unchanged
      intro T
      have step : runLimiter N wnd (c :: cs) ts =
          ((c, false) :: (runLimiter N wnd cs (pruneRequests wnd c ts)).1,
            (runLimiter N wnd cs (pruneRequests wnd c ts)).2) := by
        simp [runLimiter, is_allowed, hfull]
      rw [step]
      have := ih hsort' A (pruneRequests wnd c ts) c hcs
        (fun a ha => le_trans (hA a ha) hnc) key hcap T
      simpa [acceptedTimes] using this
    · -- admitted: `c` is appended to both the state and the history
      intro T
      have step : runLimiter N wnd (c :: cs) ts =
          ((c, true) :: (runLimiter N wnd cs (pruneRequests wnd c ts ++ [c])).1,
            (runLimiter N wnd cs (pruneRequests wnd c ts ++ [c])).2) := by
        simp [runLimiter, is_allowed, hfull]
      rw [step]
      have hA' : ∀ a ∈ A ++ [c], a ≤ c := by
        intro a ha
        rcases List.mem_append.mp ha with h | h
        · exact le_trans (hA a h) hnc
        · simp_all
      have hts' : pruneRequests wnd c ts ++ [c] =
          (A ++ [c]).filter (fun s => decide (c - s < wnd)) := by
        rw [List.filter_append, key]
        congr 1
        simp [sub_self, hw]
      have hcap' : ∀ T', ((A ++ [c]).filter (inWindow wnd T')).length ≤ N := by
        intro T'
        rw [List.filter_append]
        by_cases hcw : inWindow wnd T' c = true
        · have hsub : ∀ a ∈ A, inWindow wnd T' a = true → decide (c - a < wnd) = true := by
            intro a _ hin
            rcases (inWindow_iff wnd T' a).mp hin with ⟨h1, _⟩
            rcases (inWindow_iff wnd T' c).mp hcw with ⟨_, h4⟩
            simp only [decide_eq_true_eq]
            linarith
          have hlen : (A.filter (inWindow wnd T')).length ≤
              (A.filter (fun s => decide (c - s < wnd))).length :=
            length_filter_mono A _ _ hsub
          have hklen : (pruneRequests wnd c ts).length < N := by omega
          rw [key] at hklen
          have h1 : ([c].filter (inWindow wnd T')) = [c] := by simp [hcw]
          rw [h1, List.length_append]
          simp only [List.length_cons, List.length_nil]
          omega
        · simp only [List.filter_cons]
          rw [if_neg (by simp_all)]
          simpa using hcap T'
      have := ih hsort' (A ++ [c]) (pruneRequests wnd c ts ++ [c]) c hcs hA' hts' hcap' T
      have hre : A ++ acceptedTimes ((c, true) ::
          (runLimiter N wnd cs (pruneRequests wnd c ts ++ [c])).1) =
          (A ++ [c]) ++ acceptedTimes (runLimiter N wnd cs (pruneRequests wnd c ts ++ [c])).1 := by
        simp [acceptedTimes]
      rw [hre]
      exact this

/-- From the empty state, any nondecreasing sequence of `is_allowed`
calls admits at most `N` requests inside every trailing window. -/
theorem runLimiter_window_cap (N : ℕ) (wnd : ℚ) (hw : 0 < wnd)
    (cs : List ℚ) (hsort : cs.Sorted (· ≤ ·)) (T : ℚ) :
    ((acceptedTimes (runLimiter N wnd cs []).1).filter (inWindow wnd T)).length ≤ N := by
  cases cs with
  | nil => simp [runLimiter, acceptedTimes]
  | cons c cs =>
    have := runLimiter_cap_aux N wnd hw (c :: cs) hsort [] [] c
      (fun x hx => by
        rcases List.mem_cons.mp hx with h | h
        · exact le_of_eq h.symm
        · exact List.rel_of_sorted_cons hsort x h)
      (by simp) (by simp) (by simp) T
    simpa using this

/-- C2 (amended): for every identity, `is_allowed` first discards
timestamps older than the window, returns `true` iff fewer than
`max_requests` timestamps remain, appending the current timestamp only
on acceptance; at most 10 calls are admitted in any trailing 60-second
window; a call made while the cap is reached returns `false`; and
`get_wait_time` always returns an integer `≥ 0` (the truncated remaining
wait, which may be `0` when less than one second of the window remains,
so the original "`> 0` on rejection" part does not hold). -/
theorem rateLimiter_admission_spec :
    (∀ (now : ℚ) (ts : List ℚ),
        ((is_allowed 10 60 now ts).1 = true ↔ (pruneRequests 60 now ts).length < 10)) ∧
    (∀ (now : ℚ) (ts : List ℚ),
        (is_allowed 10 60 now ts).2 =
          (if (is_allowed 10 60 now ts).1 then pruneRequests 60 now ts ++ [now]
           else pruneRequests 60 now ts)) ∧
    (∀ (cs : List ℚ), cs.Sorted (· ≤ ·) → ∀ T : ℚ,
        ((acceptedTimes (runLimiter 10 60 cs []).1).filter (inWindow 60 T)).length ≤ 10) ∧
    (∀ (now : ℚ) (ts : List ℚ), 10 ≤ (pruneRequests 60 now ts).length →
        (is_allowed 10 60 now ts).1 = false) ∧
    (∀ (now : ℚ) (ts : List ℚ), 0 ≤ get_wait_time 60 now ts) := by
  refine ⟨?_, ?_, ?_, ?_, ?_⟩
  · intro now ts
    simp only [is_allowed]
    split <;> simp_all
  · intro now ts
    simp only [is_allowed]
    split <;> simp
  · intro cs hsort T
    exact runLimiter_window_cap 10 60 (by norm_num) cs hsort T
  · intro now ts h
    simp [is_allowed, h]
  · intro now ts
    cases ts with
    | nil => simp [get_wait_time]
    | cons t rest => simp [get_wait_time, pyMaxZeroInt]

/-- Witness for `rateLimiter_admission_spec` at concrete inputs. -/
theorem rateLimiter_admission_spec_witness :
    ((acceptedTimes (runLimiter 10 60 [0, 1, 2] []).1).filter (inWindow 60 2)).length ≤ 10 ∧
    0 ≤ get_wait_time 60 5 [1, 2] :=
  ⟨rateLimiter_admission_spec.2.2.1 [0, 1, 2] (by decide) 2,
    rateLimiter_admission_spec.2.2.2.2 5 [1, 2]⟩

/-- C2 counterexample: ten requests admitted at time `0`; a call at time
`59.5` is rejected (the cap is reached, all ten timestamps are still in
the window), yet `get_wait_time` returns `0`, not a value `> 0`, because
`int()` truncates the remaining `0.5` seconds. -/
theorem rateLimiter_wait_time_counterexample :
    (runLimiter 10 60 (List.replicate 10 0) []).2 = List.replicate 10 0 ∧
    (is_allowed 10 60 (mkRat 119 2) (List.replicate 10 0)).1 = false ∧
    get_wait_time 60 (mkRat 119 2) (List.replicate 10 0) = 0 := by
  decide

theorem foldl_append_eq_flatMap {α β : Type} (f : α → List β) (l : List α) (acc : List β) :
    l.foldl (fun acc j => acc ++ f j) acc = acc ++ l.flatMap f := by
  induction l generalizing acc with
  | nil => simp
  | cons x xs ih => simp [ih]

theorem flatMap_filterMap {α β γ : Type} (g : α → Option β) (f : β → List γ) (l : List α) :
    (l.filterMap g).flatMap f = l.flatMap (fun a => (g a).elim [] f) := by
  induction l with
  | nil => simp
  | cons x xs ih => cases hx : g x <;> simp [List.filterMap_cons, hx, ih]

theorem parseSseLines_eq_flatMap (jsonLoads : String → Option JVal) (lines : List String) :
    parseSseLines jsonLoads lines = lines.flatMap (sseLineContribution jsonLoads) := by
  simp only [parseSseLines]
  have hsplit : lines.flatMap (sseLineContribution jsonLoads) =
      (lines.filter (fun line => pyStartsWith line "data:")).flatMap
        (fun line => (decodeDataLine jsonLoads line).elim [] spliceSseValue) := by
    induction lines with
    | nil => simp
    | cons x xs ih =>
      by_cases hx : pyStartsWith x "data:" = true
      · simp [List.filter_cons, hx, ih, sseLineContribution]
      · simp only [List.filter_cons]
        rw [if_neg (by simp_all)]
        simp [sseLineContribution, hx, ih]
  rw [hsplit, ← flatMap_filterMap]
  by_cases he : ((lines.filter (fun line => pyStartsWith line "data:")).filterMap
      (decodeDataLine jsonLoads)).isEmpty = true
  · rw [if_pos he]
    rw [List.isEmpty_iff] at he
    simp [he]
  · rw [if_neg he]
    rw [foldl_append_eq_flatMap]
    simp

theorem parse_sse_response_eq_lines (jsonLoads : String → Option JVal) (text : String) :
    parse_sse_response jsonLoads text = parseSseLines jsonLoads (pySplitNl (pyStrip text)) := rfl

/-- C3: `_parse_sse_response` is a total function on strings, equal to
the order-preserving concatenation of the per-line contributions of
exactly the `data:`-prefixed lines whose remainder is nonempty, is not
`[DONE]`, and parses as JSON; a line that is malformed (not `data:`
prefixed, or whose remainder fails to parse) contributes nothing and
never disturbs the rest of the stream. -/
theorem parse_sse_response_spec :
    (∀ (jsonLoads : String → Option JVal) (text : String),
        parse_sse_response jsonLoads text =
          (pySplitNl (pyStrip text)).flatMap (sseLineContribution jsonLoads)) ∧
    (∀ (jsonLoads : String → Option JVal) (text : String),
        parse_sse_response jsonLoads text =
          (extractDataLines text).flatMap (fun line =>
            (decodeDataLine jsonLoads line).elim [] spliceSseValue)) ∧
    (∀ (jsonLoads : String → Option JVal) (l₁ l₂ : List String) (b : String),
        (pyStartsWith b "data:" = false ∨ decodeDataLine jsonLoads b = none) →
        parseSseLines jsonLoads (l₁ ++ b :: l₂) = parseSseLines jsonLoads (l₁ ++ l₂)) := by
  refine ⟨?_, ?_, ?_⟩
  · intro jsonLoads text
    rw [parse_sse_response_eq_lines, parseSseLines_eq_flatMap]
  · intro jsonLoads text
    rw [parse_sse_response_eq_lines, parseSseLines_eq_flatMap]
    simp only [extractDataLines]
    induction pySplitNl (pyStrip text) with
    | nil => simp
    | cons x xs ih =>
      by_cases hx : pyStartsWith x "data:" = true
      · simp [List.filter_cons, hx, ih, sseLineContribution]
      · simp only [List.filter_cons]
        rw [if_neg (by simp_all)]
        simp [sseLineContribution, hx, ih]
  · intro jsonLoads l₁ l₂ b hb
    rw [parseSseLines_eq_flatMap, parseSseLines_eq_flatMap]
    have hzero : sseLineContribution jsonLoads b = [] := by
      rcases hb with h | h <;> simp [sseLineContribution, h]
    simp [hzero]

/-- Witness for `parse_sse_response_spec` at a concrete malformed line
interleaved between two valid events. -/
theorem parse_sse_response_spec_witness :
    parseSseLines (fun _ => some (JVal.arr []))
        (["data: A"] ++ "garbage" :: ["data: B"]) =
      parseSseLines (fun _ => some (JVal.arr [])) (["data: A"] ++ ["data: B"]) :=
  parse_sse_response_spec.2.2 (fun _ => some (JVal.arr [])) ["data: A"] ["data: B"]
    "garbage" (Or.inl (by decide))

theorem search_loop_attempts_le (jsonLoads : String → Option JVal)
    (transferRender : List JVal → ℕ → List String) (cfg : PluginCfg)
    (maxRetries : ℕ) (outcomes : ℕ → SearchOutcome) (m : SessMap)
    (key kw : String) (fn : Bool) (pt page : ℕ) :
    ∀ (k retryCount : ℕ), maxRetries - retryCount ≤ k →
      (search_loop jsonLoads transferRender cfg maxRetries outcomes m key kw fn pt page
        retryCount).attempts ≤ maxRetries - retryCount := by
  intro k
  induction k with
  | zero =>
    intro rc h
    rw [search_loop, if_neg (by omega)]
    simp
  | succ k ih =>
    intro rc h
    rw [search_loop]
    by_cases hg : rc < maxRetries
    · rw [if_pos hg]
      cases houtcome : outcomes rc with
      | ok body => simp; omega
      | notFound => simp; omega
      | tooMany =>
        by_cases hlast : maxRetries ≤ rc + 1
        · simp [hlast]; omega
        · have := ih (rc + 1) (by omega)
          simp [hlast]
          omega
      | otherStatus code =>
        by_cases hlast : maxRetries ≤ rc + 1
        · simp [hlast]; omega
        · have := ih (rc + 1) (by omega)
          simp [hlast]
          omega
      | timedOut =>
        by_cases hlast : maxRetries ≤ rc + 1
        · simp [hlast]; omega
        · have := ih (rc + 1) (by omega)
          simp [hlast]
          omega
      | clientError =>
        by_cases hlast : maxRetries ≤ rc + 1
        · simp [hlast]; omega
        · have := ih (rc + 1) (by omega)
          simp [hlast]
          omega
      | unknownErr e => simp; omega
    · rw [if_neg hg]
      simp

/-- C1: the retry loop makes at most `maxRetries` attempts under every
outcome sequence, and with `maxRetries = 3` and a 429 on every attempt
(for any valid keyword) it makes exactly 3 attempts, sleeps
`2 ^ retry_count` seconds after each of the two non-final attempts
(2 then 4 seconds, the counter having just been incremented), leaves the
session map untouched and returns the too-many-requests message. -/
theorem search_retry_loop_spec :
    (∀ (jsonLoads : String → Option JVal) (transferRender : List JVal → ℕ → List String)
        (cfg : PluginCfg) (maxRetries : ℕ) (outcomes : ℕ → SearchOutcome) (m : SessMap)
        (key kw : String) (fn : Bool) (pt page : ℕ),
      (search_loop jsonLoads transferRender cfg maxRetries outcomes m key kw fn pt page
        0).attempts ≤ maxRetries) ∧
    (∀ (jsonLoads : String → Option JVal) (transferRender : List JVal → ℕ → List String)
        (cfg : PluginCfg) (m : SessMap) (key : String) (fn : Bool) (pt : ℕ),
      search_resources jsonLoads transferRender cfg 3 (fun _ => .tooMany) m key "abc" fn pt =
        ⟨msgTooManyRequests, m, 3, [2 ^ 1, 2 ^ 2]⟩) := by
  constructor
  · intro jsonLoads transferRender cfg maxRetries outcomes m key kw fn pt page
    simpa using search_loop_attempts_le jsonLoads transferRender cfg maxRetries outcomes m
      key kw fn pt page maxRetries 0 (by omega)
  · intro jsonLoads transferRender cfg m key fn pt
    have hkw : ¬("abc" = "" ∨ pyStrip "abc" = "") := by decide
    have hlen : ¬(50 < pyStrLen "abc") := by decide
    rw [search_resources, if_neg hkw, if_neg hlen]
    simp [search_loop]

/-- C7 (amended): a keyword that is empty after trimming returns the
empty-keyword message with zero attempts (hence zero network requests);
a keyword that survives trimming but exceeds 50 characters returns the
keyword-too-long message with zero attempts.  (The whitespace check runs
first, so a keyword that is both blank and over-long gets the
empty-keyword message — see the counterexample.) -/
theorem search_keyword_validation :
    (∀ (jsonLoads : String → Option JVal) (transferRender : List JVal → ℕ → List String)
        (cfg : PluginCfg) (maxRetries : ℕ) (outcomes : ℕ → SearchOutcome) (m : SessMap)
        (key kw : String) (fn : Bool) (pt : ℕ), pyStrip kw = "" →
      search_resources jsonLoads transferRender cfg maxRetries outcomes m key kw fn pt =
        ⟨msgEmptyKeyword, m, 0, []⟩) ∧
    (∀ (jsonLoads : String → Option JVal) (transferRender : List JVal → ℕ → List String)
        (cfg : PluginCfg) (maxRetries : ℕ) (outcomes : ℕ → SearchOutcome) (m : SessMap)
        (key kw : String) (fn : Bool) (pt : ℕ), pyStrip kw ≠ "" → 50 < pyStrLen kw →
      search_resources jsonLoads transferRender cfg maxRetries outcomes m key kw fn pt =
        ⟨msgKeywordTooLong, m, 0, []⟩) := by
  constructor
  · intro jsonLoads transferRender cfg maxRetries outcomes m key kw fn pt h
    rw [search_resources, if_pos (Or.inr h)]
  · intro jsonLoads transferRender cfg maxRetries outcomes m key kw fn pt h1 h2
    have hne : ¬(kw = "" ∨ pyStrip kw = "") := by
      rintro (h | h)
      · exact h1 (by simp [h]; decide)
      · exact h1 h
    rw [search_resources, if_neg hne, if_pos h2]

/-- Witness for `search_keyword_validation` at concrete keywords. -/
theorem search_keyword_validation_witness :
    (search_resources (fun _ => none) (fun _ _ => []) ⟨5, true, true, "k", "b"⟩ 3
        (fun _ => .tooMany) (fun _ => none) "u" "   " false 0 =
      ⟨msgEmptyKeyword, fun _ => none, 0, []⟩) ∧
    (search_resources (fun _ => none) (fun _ _ => []) ⟨5, true, true, "k", "b"⟩ 3
        (fun _ => .tooMany) (fun _ => none) "u" ⟨List.replicate 51 'a'⟩ false 0 =
      ⟨msgKeywordTooLong, fun _ => none, 0, []⟩) :=
  ⟨search_keyword_validation.1 (fun _ => none) (fun _ _ => []) ⟨5, true, true, "k", "b"⟩ 3
      (fun _ => .tooMany) (fun _ => none) "u" "   " false 0 (by decide),
    search_keyword_validation.2 (fun _ => none) (fun _ _ => []) ⟨5, true, true, "k", "b"⟩ 3
      (fun _ => .tooMany) (fun _ => none) "u" ⟨List.replicate 51 'a'⟩ false 0
      (by decide) (by decide)⟩

/-- C7 counterexample: a keyword of 51 whitespace characters is longer
than 50 characters, yet `_search_resources` returns the empty-keyword
message (the blank check runs first), not the keyword-too-long message
the claim requires for every over-long keyword. -/
theorem search_keyword_long_blank_counterexample :
    pyStrLen ⟨List.replicate 51 ' '⟩ = 51 ∧
    (search_resources (fun _ => none) (fun _ _ => []) ⟨5, true, true, "k", "b"⟩ 3
        (fun _ => .tooMany) (fun _ => none) "u" ⟨List.replicate 51 ' '⟩ false 0).msg =
      msgEmptyKeyword ∧
    msgEmptyKeyword ≠ msgKeywordTooLong := by
  refine ⟨by decide, ?_, by decide⟩
  rw [search_resources, if_pos (Or.inr (by decide))]

theorem formatExtract_session (jsonLoads : String → Option JVal) (m : SessMap)
    (key : String) (s : Session) (hs : m key = some s) :
    formatExtract jsonLoads m key s.results = sessionExtract jsonLoads s := by
  cases hr : s.results with
  | json v =>
    cases v <;> simp [formatExtract, sessionExtract, hr, hs]
  | sse t =>
    simp [formatExtract, sessionExtract, hr, hs]

theorem sessionExtract_set_current (jsonLoads : String → Option JVal) (s : Session) (c : ℕ) :
    sessionExtract jsonLoads { s with currentPage := c } = sessionExtract jsonLoads s := rfl

theorem sessionExtract_set_total (jsonLoads : String → Option JVal) (s : Session) (t : ℕ) :
    sessionExtract jsonLoads { s with totalPages := t } = sessionExtract jsonLoads s := rfl

theorem parse_sse_response_eq_inline (jsonLoads : String → Option JVal) (text : String) :
    parse_sse_response jsonLoads text = sseInlineCombine jsonLoads text := by
  simp only [parse_sse_response, sseInlineCombine]
  by_cases he : ((extractDataLines text).filterMap (decodeDataLine jsonLoads)).isEmpty = true
  · rw [if_pos he]
    rw [List.isEmpty_iff] at he
    rw [he]
    rfl
  · rw [if_neg he]

theorem pyTruthy_len_pos (v : JVal) (n : ℕ) (ht : pyTruthy v = true)
    (hl : pyLen v = some n) : 1 ≤ n := by
  cases v with
  | obj fs =>
    have h1 : fs ≠ [] := by simpa [pyTruthy, List.isEmpty_iff] using ht
    have h2 : fs.length = n := by simpa [pyLen] using hl
    have := List.length_pos.mpr h1
    omega
  | arr l =>
    have h1 : l ≠ [] := by simpa [pyTruthy, List.isEmpty_iff] using ht
    have h2 : l.length = n := by simpa [pyLen] using hl
    have := List.length_pos.mpr h1
    omega
  | str s =>
    have h1 : s.data ≠ [] := by simpa [pyTruthy, List.isEmpty_iff] using ht
    have h2 : s.data.length = n := by simpa [pyLen] using hl
    have := List.length_pos.mpr h1
    omega
  | num k => simp [pyLen] at hl
  | bool b => simp [pyLen] at hl
  | null => simp [pyLen] at hl

/-- Effect of `_format_search_results` on the session map: the
total-page count is stored exactly when the extracted value is truthy
and sized; otherwise the map is returned unchanged. -/
theorem format_sessions_eq (jsonLoads : String → Option JVal)
    (transferRender : List JVal → ℕ → List String) (cfg : PluginCfg)
    (m : SessMap) (key : String) (data : PyData) (kw : String) (page : ℕ) :
    (format_search_results jsonLoads transferRender cfg m key data kw page).2 =
      (if pyTruthy (formatExtract jsonLoads m key data) then
        match pyLen (formatExtract jsonLoads m key data) with
        | some n => setTotalPages m key ((n + cfg.resultsPerPage - 1) / cfg.resultsPerPage)
        | none => m
      else m) := by
  cases hv : formatExtract jsonLoads m key data with
  | arr l =>
    by_cases hl : l.isEmpty
    · have : l = [] := by simpa [List.isEmpty_iff] using hl
      simp [format_search_results, hv, this, pyTruthy]
    · have hne : ¬l = [] := by simpa [List.isEmpty_iff] using hl
      simp only [format_search_results, hv, hl, Bool.false_eq_true, if_false, pyTruthy, pyLen]
      split <;> simp [hne]
  | obj fs =>
    simp only [format_search_results, hv, pyTruthy, pyLen]
    by_cases hf : fs.isEmpty <;> simp [hf]
  | str t =>
    simp only [format_search_results, hv, pyTruthy, pyLen]
    by_cases hf : t.data.isEmpty <;> simp [hf]
  | num n => simp [format_search_results, hv, pyTruthy, pyLen]; split <;> simp_all
  | bool b => cases b <;> simp [format_search_results, hv, pyTruthy, pyLen]
  | null => simp [format_search_results, hv, pyTruthy, pyLen]

theorem setSession_self (m : SessMap) (key : String) (s : Session) :
    setSession m key s key = some s := by simp [setSession]

theorem setSession_other (m : SessMap) (key : String) (s : Session) (k : String)
    (h : k ≠ key) : setSession m key s k = m k := by simp [setSession, h]

theorem setCurrentPage_self (m : SessMap) (key : String) (p : ℕ) :
    setCurrentPage m key p key = (m key).map (fun s => { s with currentPage := p }) := by
  simp [setCurrentPage]

theorem setCurrentPage_other (m : SessMap) (key : String) (p : ℕ) (k : String)
    (h : k ≠ key) : setCurrentPage m key p k = m k := by simp [setCurrentPage, h]

theorem setTotalPages_other (m : SessMap) (key : String) (tp : ℕ) (k : String)
    (h : k ≠ key) : setTotalPages m key tp k = m k := by simp [setTotalPages, h]

theorem ceil_div_pos (n p : ℕ) (hn : 1 ≤ n) (hp : 1 ≤ p) : 1 ≤ (n + p - 1) / p := by
  rw [Nat.le_div_iff_mul_le (by omega)]
  omega

theorem expectedTotalPages_pos (jsonLoads : String → Option JVal) (p : ℕ) (s : Session)
    (hp : 1 ≤ p) : 1 ≤ expectedTotalPages jsonLoads p s := by
  unfold expectedTotalPages
  by_cases ht : pyTruthy (sessionExtract jsonLoads s) = true
  · rw [if_pos ht]
    cases hlen : pyLen (sessionExtract jsonLoads s) with
    | none => simp
    | some n => simpa using ceil_div_pos n p (pyTruthy_len_pos _ n ht hlen) hp
  · rw [if_neg ht]

/-- One `_format_search_results` call keeps the pagination invariant of
the session it touches (and leaves every other identity alone),
provided the data it formats denotes the same result list as the stored
session and the stored page is within the expected bounds. -/
theorem format_step_inv (jsonLoads : String → Option JVal)
    (transferRender : List JVal → ℕ → List String) (cfg : PluginCfg)
    (m : SessMap) (key : String) (data : PyData)
    (kw : String) (page : ℕ) (s0 : Session)
    (hs0 : m key = some s0)
    (hext : formatExtract jsonLoads m key data = sessionExtract jsonLoads s0)
    (hcur : 1 ≤ s0.currentPage)
    (hcurle : s0.currentPage ≤ expectedTotalPages jsonLoads cfg.resultsPerPage s0)
    (htot : s0.totalPages = 1 ∨
      s0.totalPages = expectedTotalPages jsonLoads cfg.resultsPerPage s0) :
    ∀ key' s',
      (format_search_results jsonLoads transferRender cfg m key data kw page).2 key' = some s' →
      (key' = key ∧ SessionInv jsonLoads cfg.resultsPerPage s') ∨
        (key' ≠ key ∧ m key' = some s') := by
  intro key' s' hs'
  rw [format_sessions_eq, hext] at hs'
  by_cases hk : key' = key
  · left
    refine ⟨hk, ?_⟩
    rw [hk] at hs'
    by_cases ht : pyTruthy (sessionExtract jsonLoads s0) = true
    · rw [if_pos ht] at hs'
      cases hlen : pyLen (sessionExtract jsonLoads s0) with
      | none =>
        rw [hlen] at hs'
        replace hs' : m key = some s' := hs'
        have hexp : expectedTotalPages jsonLoads cfg.resultsPerPage s0 = 1 := by
          simp [expectedTotalPages, ht, hlen]
        rw [hs0] at hs'
        have hss : s' = s0 := (Option.some_inj.mp hs').symm
        subst hss
        exact ⟨hcur, by omega, by omega⟩
      | some n =>
        rw [hlen] at hs'
        replace hs' : setTotalPages m key
            ((n + cfg.resultsPerPage - 1) / cfg.resultsPerPage) key = some s' := hs'
        have hexp : expectedTotalPages jsonLoads cfg.resultsPerPage s0 =
            (n + cfg.resultsPerPage - 1) / cfg.resultsPerPage := by
          simp [expectedTotalPages, ht, hlen]
        have hset : setTotalPages m key
            ((n + cfg.resultsPerPage - 1) / cfg.resultsPerPage) key =
            some { s0 with totalPages := (n + cfg.resultsPerPage - 1) / cfg.resultsPerPage } := by
          simp [setTotalPages, hs0]
        rw [hset] at hs'
        have hss : s' =
            { s0 with totalPages := (n + cfg.resultsPerPage - 1) / cfg.resultsPerPage } :=
          (Option.some_inj.mp hs').symm
        subst hss
        refine ⟨hcur, ?_, ?_⟩
        · show s0.currentPage ≤ (n + cfg.resultsPerPage - 1) / cfg.resultsPerPage
          omega
        · show (n + cfg.resultsPerPage - 1) / cfg.resultsPerPage =
            expectedTotalPages jsonLoads cfg.resultsPerPage
              { s0 with totalPages := (n + cfg.resultsPerPage - 1) / cfg.resultsPerPage }
          rw [show expectedTotalPages jsonLoads cfg.resultsPerPage
              { s0 with totalPages := (n + cfg.resultsPerPage - 1) / cfg.resultsPerPage } =
              expectedTotalPages jsonLoads cfg.resultsPerPage s0 from rfl]
          omega
    · rw [if_neg ht] at hs'
      have hexp : expectedTotalPages jsonLoads cfg.resultsPerPage s0 = 1 := by
        simp [expectedTotalPages, ht]
      rw [hs0] at hs'
      have hss : s' = s0 := (Option.some_inj.mp hs').symm
      subst hss
      exact ⟨hcur, by omega, by omega⟩
  · right
    refine ⟨hk, ?_⟩
    by_cases ht : pyTruthy (sessionExtract jsonLoads s0) = true
    · rw [if_pos ht] at hs'
      cases hlen : pyLen (sessionExtract jsonLoads s0) with
      | none =>
        rw [hlen] at hs'
        exact hs'
      | some n =>
        rw [hlen] at hs'
        replace hs' : setTotalPages m key
            ((n + cfg.resultsPerPage - 1) / cfg.resultsPerPage) key' = some s' := hs'
        rwa [setTotalPages_other m key _ key' hk] at hs'
    · rw [if_neg ht] at hs'
      exact hs'

/-- Every session stored in a reachable session map satisfies the
pagination invariant. -/
theorem reachable_sessions_inv (jsonLoads : String → Option JVal)
    (transferRender : List JVal → ℕ → List String) (cfg : PluginCfg)
    (hp : 1 ≤ cfg.resultsPerPage) :
    ∀ m, ReachableSessions jsonLoads transferRender cfg m →
      ∀ key s, m key = some s → SessionInv jsonLoads cfg.resultsPerPage s := by
  intro m hm
  induction hm with
  | init =>
    intro key s hs
    simp at hs
  | search m key kw fn pt body hm ih =>
    intro key' s' hs'
    cases body with
    | jsonBad => exact ih key' s' hs'
    | jsonOk v =>
      have hs0 : setSession m key ⟨.json v, kw, fn, pt, 1, 1, false⟩ key =
          some ⟨.json v, kw, fn, pt, 1, 1, false⟩ := setSession_self m key _
      have hext := formatExtract_session jsonLoads
        (setSession m key ⟨.json v, kw, fn, pt, 1, 1, false⟩) key
        ⟨.json v, kw, fn, pt, 1, 1, false⟩ hs0
      have hstep := format_step_inv jsonLoads transferRender cfg _ key (.json v) kw 1
        ⟨.json v, kw, fn, pt, 1, 1, false⟩ hs0 hext (by simp)
        (expectedTotalPages_pos jsonLoads cfg.resultsPerPage _ hp) (Or.inl rfl)
      rcases hstep key' s' hs' with ⟨_, hinv⟩ | ⟨hne, hmk⟩
      · exact hinv
      · rw [setSession_other m key _ key' hne] at hmk
        exact ih key' s' hmk
    | sse text =>
      have hs0 : setSession m key ⟨.sse text, kw, fn, pt, 1, 1, true⟩ key =
          some ⟨.sse text, kw, fn, pt, 1, 1, true⟩ := setSession_self m key _
      have hext : formatExtract jsonLoads
          (setSession m key ⟨.sse text, kw, fn, pt, 1, 1, true⟩) key
          (.json (.arr (parse_sse_response jsonLoads text))) =
          sessionExtract jsonLoads ⟨.sse text, kw, fn, pt, 1, 1, true⟩ := by
        show JVal.arr (parse_sse_response jsonLoads text) =
          sessionExtract jsonLoads ⟨.sse text, kw, fn, pt, 1, 1, true⟩
        rw [parse_sse_response_eq_inline]
        rfl
      have hstep := format_step_inv jsonLoads transferRender cfg _ key
        (.json (.arr (parse_sse_response jsonLoads text))) kw 1
        ⟨.sse text, kw, fn, pt, 1, 1, true⟩ hs0 hext (by simp)
        (expectedTotalPages_pos jsonLoads cfg.resultsPerPage _ hp) (Or.inl rfl)
      rcases hstep key' s' hs' with ⟨_, hinv⟩ | ⟨hne, hmk⟩
      · exact hinv
      · rw [setSession_other m key _ key' hne] at hmk
        exact ih key' s' hmk
  | next m key hm ih =>
    intro key' s' hs'
    by_cases hpag : cfg.enablePagination = false
    · have hcore : (nextPageCore jsonLoads transferRender cfg m key).2 = m := by
        simp [nextPageCore, hpag]
      rw [hcore] at hs'
      exact ih key' s' hs'
    · have hpag' : cfg.enablePagination = true := by
        cases h : cfg.enablePagination
        · exact absurd h hpag
        · rfl
      cases hmk : m key with
      | none =>
        have hcore : (nextPageCore jsonLoads transferRender cfg m key).2 = m := by
          simp [nextPageCore, hpag', hmk]
        rw [hcore] at hs'
        exact ih key' s' hs'
      | some s =>
        by_cases htr : pyDataTruthy s.results = false
        · have hcore : (nextPageCore jsonLoads transferRender cfg m key).2 = m := by
            simp [nextPageCore, hpag', hmk, htr]
          rw [hcore] at hs'
          exact ih key' s' hs'
        · by_cases htp : s.totalPages ≤ 1
          · have hcore : (nextPageCore jsonLoads transferRender cfg m key).2 = m := by
              simp [nextPageCore, hpag', hmk, htr, htp]
            rw [hcore] at hs'
            exact ih key' s' hs'
          · by_cases hcp : s.currentPage < s.totalPages
            · have hcore : (nextPageCore jsonLoads transferRender cfg m key).2 =
                  (format_search_results jsonLoads transferRender cfg
                    (setCurrentPage m key (s.currentPage + 1)) key s.results s.keyword
                    (s.currentPage + 1)).2 := by
                simp [nextPageCore, hpag', hmk, htr, htp, hcp]
              rw [hcore] at hs'
              obtain ⟨h1, h2, h3⟩ := ih key s hmk
              have hm1k : setCurrentPage m key (s.currentPage + 1) key =
                  some { s with currentPage := s.currentPage + 1 } := by
                simp [setCurrentPage, hmk]
              have hext := formatExtract_session jsonLoads
                (setCurrentPage m key (s.currentPage + 1)) key
                { s with currentPage := s.currentPage + 1 } hm1k
              have hstep := format_step_inv jsonLoads transferRender cfg _ key s.results
                s.keyword (s.currentPage + 1) { s with currentPage := s.currentPage + 1 }
                hm1k hext (by simp)
                (by
                  show s.currentPage + 1 ≤ expectedTotalPages jsonLoads cfg.resultsPerPage s
                  omega)
                (Or.inr h3)
              rcases hstep key' s' hs' with ⟨_, hinv⟩ | ⟨hne, hmk'⟩
              · exact hinv
              · rw [setCurrentPage_other m key _ key' hne] at hmk'
                exact ih key' s' hmk'
            · have hcore : (nextPageCore jsonLoads transferRender cfg m key).2 = m := by
                simp [nextPageCore, hpag', hmk, htr, htp, hcp]
              rw [hcore] at hs'
              exact ih key' s' hs'
  | prev m key b hm ih =>
    intro key' s' hs'
    by_cases hpag : cfg.enablePagination = false
    · have hcore : (prevPageCore jsonLoads transferRender cfg b m key).2 = m := by
        simp [prevPageCore, hpag]
      rw [hcore] at hs'
      exact ih key' s' hs'
    · have hpag' : cfg.enablePagination = true := by
        cases h : cfg.enablePagination
        · exact absurd h hpag
        · rfl
      cases hmk : m key with
      | none =>
        have hcore : (prevPageCore jsonLoads transferRender cfg b m key).2 = m := by
          cases b <;> simp [prevPageCore, hpag', hmk]
        rw [hcore] at hs'
        exact ih key' s' hs'
      | some s =>
        by_cases htr : pyDataTruthy s.results = false
        · have hcore : (prevPageCore jsonLoads transferRender cfg b m key).2 = m := by
            simp [prevPageCore, hpag', hmk, htr]
          rw [hcore] at hs'
          exact ih key' s' hs'
        · by_cases htp : s.totalPages ≤ 1
          · have hcore : (prevPageCore jsonLoads transferRender cfg b m key).2 = m := by
              simp [prevPageCore, hpag', hmk, htr, htp]
            rw [hcore] at hs'
            exact ih key' s' hs'
          · by_cases hcp : 1 < s.currentPage
            · have hcore : (prevPageCore jsonLoads transferRender cfg b m key).2 =
                  (format_search_results jsonLoads transferRender cfg
                    (setCurrentPage m key (s.currentPage - 1)) key s.results s.keyword
                    (s.currentPage - 1)).2 := by
                simp [prevPageCore, hpag', hmk, htr, htp, hcp]
              rw [hcore] at hs'
              obtain ⟨h1, h2, h3⟩ := ih key s hmk
              have hm1k : setCurrentPage m key (s.currentPage - 1) key =
                  some { s with currentPage := s.currentPage - 1 } := by
                simp [setCurrentPage, hmk]
              have hext := formatExtract_session jsonLoads
                (setCurrentPage m key (s.currentPage - 1)) key
                { s with currentPage := s.currentPage - 1 } hm1k
              have hstep := format_step_inv jsonLoads transferRender cfg _ key s.results
                s.keyword (s.currentPage - 1) { s with currentPage := s.currentPage - 1 }
                hm1k hext
                (by
                  show 1 ≤ s.currentPage - 1
                  omega)
                (by
                  show s.currentPage - 1 ≤ expectedTotalPages jsonLoads cfg.resultsPerPage s
                  omega)
                (Or.inr h3)
              rcases hstep key' s' hs' with ⟨_, hinv⟩ | ⟨hne, hmk'⟩
              · exact hinv
              · rw [setCurrentPage_other m key _ key' hne] at hmk'
                exact ih key' s' hmk'
            · have hcore : (prevPageCore jsonLoads transferRender cfg b m key).2 = m := by
                simp [prevPageCore, hpag', hmk, htr, htp, hcp]
              rw [hcore] at hs'
              exact ih key' s' hs'

/-- C4 (amended): in every session map reachable through storing a 200
search response, formatting, or advancing a page, each stored session
has `0 < current_page ≤ total_pages` (and `total_pages ≥ 1`), and
whenever the session's result list is a nonempty list the stored
`total_pages` equals `ceil(length / pageSize)`.  The `ceil` equation is
restricted to nonempty lists because a 200 response with an empty list
returns before the update and leaves the initialised `total_pages = 1`,
not `ceil(0 / pageSize) = 0` (see the counterexample). -/
theorem session_pagination_invariant (jsonLoads : String → Option JVal)
    (transferRender : List JVal → ℕ → List String) (cfg : PluginCfg)
    (hp : 1 ≤ cfg.resultsPerPage) (m : SessMap)
    (hm : ReachableSessions jsonLoads transferRender cfg m)
    (key : String) (s : Session) (hs : m key = some s) :
    (0 < s.currentPage ∧ s.currentPage ≤ s.totalPages) ∧
    (∀ l : List JVal, sessionExtract jsonLoads s = .arr l → l ≠ [] →
      s.totalPages = (l.length + cfg.resultsPerPage - 1) / cfg.resultsPerPage) := by
  obtain ⟨h1, h2, h3⟩ := reachable_sessions_inv jsonLoads transferRender cfg hp m hm key s hs
  refine ⟨⟨h1, h2⟩, ?_⟩
  intro l hl hne
  rw [h3]
  unfold expectedTotalPages
  rw [hl]
  have ht : pyTruthy (JVal.arr l) = true := by simp [pyTruthy, List.isEmpty_iff, hne]
  rw [if_pos ht]
  simp [pyLen]

/-- Witness for `session_pagination_invariant`: the map obtained by
storing a one-element 200 JSON response for user `u`. -/
theorem session_pagination_invariant_witness :
    (0 < (1 : ℕ) ∧ (1 : ℕ) ≤ 1) ∧
    (∀ l : List JVal,
      sessionExtract (fun _ => none)
        ⟨.json (.arr [.null]), "kw", false, 0, 1, 1, false⟩ = .arr l →
      l ≠ [] → (1 : ℕ) = (l.length + 5 - 1) / 5) :=
  session_pagination_invariant (fun _ => none) (fun _ _ => [])
    ⟨5, true, true, "k", "b"⟩ (by decide)
    ((handle200 (fun _ => none) (fun _ _ => []) ⟨5, true, true, "k", "b"⟩ (fun _ => none)
      "u" "kw" false 0 1 (.jsonOk (.arr [.null]))).2)
    (ReachableSessions.search _ "u" "kw" false 0 _ ReachableSessions.init)
    "u" ⟨.json (.arr [.null]), "kw", false, 0, 1, 1, false⟩ rfl

/-- C4 counterexample: storing a 200 JSON response whose result list is
empty leaves the session with `total_pages = 1`, while
`ceil(0 / 5) = 0`, so the claimed equality `total_pages = ceil(len /
pageSize)` fails on empty result lists. -/
theorem session_empty_total_pages_counterexample :
    ((handle200 (fun _ => none) (fun _ _ => []) ⟨5, true, true, "k", "b"⟩ (fun _ => none)
        "u" "kw" false 0 1 (.jsonOk (.arr []))).2 "u").map Session.totalPages = some 1 ∧
    ((handle200 (fun _ => none) (fun _ _ => []) ⟨5, true, true, "k", "b"⟩ (fun _ => none)
        "u" "kw" false 0 1 (.jsonOk (.arr []))).2 "u").map
      (fun s => sessionExtract (fun _ => none) s) = some (JVal.arr []) ∧
    ((0 : ℕ) + 5 - 1) / 5 = 0 ∧ (1 : ℕ) ≠ 0 := by
  refine ⟨rfl, rfl, by decide, by decide⟩

/-- Advancing from a page strictly below the total: messages and the
new current page, with no assumption on the shape of the stored data. -/
theorem nextPage_advance_parts (jsonLoads : String → Option JVal)
    (transferRender : List JVal → ℕ → List String) (cfg : PluginCfg)
    (m : SessMap) (key : String) (s : Session)
    (hpag : cfg.enablePagination = true) (hmk : m key = some s)
    (htr : pyDataTruthy s.results = true) (htp : 1 < s.totalPages)
    (hcp : s.currentPage < s.totalPages) :
    (nextPageCore jsonLoads transferRender cfg m key).1 =
      [msgTurningPage, (format_search_results jsonLoads transferRender cfg
        (setCurrentPage m key (s.currentPage + 1)) key s.results s.keyword
        (s.currentPage + 1)).1] ∧
    ((nextPageCore jsonLoads transferRender cfg m key).2 key).map Session.currentPage =
      some (s.currentPage + 1) := by
  have htp' : ¬(s.totalPages ≤ 1) := by omega
  have hcore1 : (nextPageCore jsonLoads transferRender cfg m key).1 =
      [msgTurningPage, (format_search_results jsonLoads transferRender cfg
        (setCurrentPage m key (s.currentPage + 1)) key s.results s.keyword
        (s.currentPage + 1)).1] := by
    simp [nextPageCore, hpag, hmk, htr, htp', hcp]
  have hcore2 : (nextPageCore jsonLoads transferRender cfg m key).2 =
      (format_search_results jsonLoads transferRender cfg
        (setCurrentPage m key (s.currentPage + 1)) key s.results s.keyword
        (s.currentPage + 1)).2 := by
    simp [nextPageCore, hpag, hmk, htr, htp', hcp]
  refine ⟨hcore1, ?_⟩
  rw [hcore2, format_sessions_eq]
  by_cases ht : pyTruthy (formatExtract jsonLoads (setCurrentPage m key (s.currentPage + 1))
      key s.results) = true
  · rw [if_pos ht]
    cases hlen : pyLen (formatExtract jsonLoads (setCurrentPage m key (s.currentPage + 1))
        key s.results) with
    | none => simp [setCurrentPage, hmk]
    | some n => simp [setTotalPages, setCurrentPage, hmk]
  · rw [if_neg ht]
    simp [setCurrentPage, hmk]

/-- Stepping back from a page strictly above 1: messages and the new
current page. -/
theorem prevPage_back_parts (jsonLoads : String → Option JVal)
    (transferRender : List JVal → ℕ → List String) (cfg : PluginCfg) (b : Bool)
    (m : SessMap) (key : String) (s : Session)
    (hpag : cfg.enablePagination = true) (hmk : m key = some s)
    (htr : pyDataTruthy s.results = true) (htp : 1 < s.totalPages)
    (hcp : 1 < s.currentPage) :
    (prevPageCore jsonLoads transferRender cfg b m key).1 =
      [msgTurningPage, (format_search_results jsonLoads transferRender cfg
        (setCurrentPage m key (s.currentPage - 1)) key s.results s.keyword
        (s.currentPage - 1)).1] ∧
    ((prevPageCore jsonLoads transferRender cfg b m key).2 key).map Session.currentPage =
      some (s.currentPage - 1) := by
  have htp' : ¬(s.totalPages ≤ 1) := by omega
  have hcore1 : (prevPageCore jsonLoads transferRender cfg b m key).1 =
      [msgTurningPage, (format_search_results jsonLoads transferRender cfg
        (setCurrentPage m key (s.currentPage - 1)) key s.results s.keyword
        (s.currentPage - 1)).1] := by
    simp [prevPageCore, hpag, hmk, htr, htp', hcp]
  have hcore2 : (prevPageCore jsonLoads transferRender cfg b m key).2 =
      (format_search_results jsonLoads transferRender cfg
        (setCurrentPage m key (s.currentPage - 1)) key s.results s.keyword
        (s.currentPage - 1)).2 := by
    simp [prevPageCore, hpag, hmk, htr, htp', hcp]
  refine ⟨hcore1, ?_⟩
  rw [hcore2, format_sessions_eq]
  by_cases ht : pyTruthy (formatExtract jsonLoads (setCurrentPage m key (s.currentPage - 1))
      key s.results) = true
  · rw [if_pos ht]
    cases hlen : pyLen (formatExtract jsonLoads (setCurrentPage m key (s.currentPage - 1))
        key s.results) with
    | none => simp [setCurrentPage, hmk]
    | some n => simp [setTotalPages, setCurrentPage, hmk]
  · rw [if_neg ht]
    simp [setCurrentPage, hmk]

/-- Advancing from a page strictly below the total, when the session
stores a nonempty result list whose total-page count is consistent:
the stored session afterwards is the same session one page further. -/
theorem nextPage_advance_session (jsonLoads : String → Option JVal)
    (transferRender : List JVal → ℕ → List String) (cfg : PluginCfg)
    (m : SessMap) (key : String) (s : Session) (l : List JVal)
    (hpag : cfg.enablePagination = true) (hmk : m key = some s)
    (htr : pyDataTruthy s.results = true)
    (hext : sessionExtract jsonLoads s = .arr l) (hne : l ≠ [])
    (htot : s.totalPages = (l.length + cfg.resultsPerPage - 1) / cfg.resultsPerPage)
    (htp : 1 < s.totalPages) (hcp : s.currentPage < s.totalPages) :
    (nextPageCore jsonLoads transferRender cfg m key).2 key =
      some { s with currentPage := s.currentPage + 1 } := by
  have htp' : ¬(s.totalPages ≤ 1) := by omega
  have hcore2 : (nextPageCore jsonLoads transferRender cfg m key).2 =
      (format_search_results jsonLoads transferRender cfg
        (setCurrentPage m key (s.currentPage + 1)) key s.results s.keyword
        (s.currentPage + 1)).2 := by
    simp [nextPageCore, hpag, hmk, htr, htp', hcp]
  rw [hcore2, format_sessions_eq]
  have hm1k : setCurrentPage m key (s.currentPage + 1) key =
      some { s with currentPage := s.currentPage + 1 } := by
    simp [setCurrentPage, hmk]
  have hextm : formatExtract jsonLoads (setCurrentPage m key (s.currentPage + 1)) key
      s.results = JVal.arr l := by
    rw [formatExtract_session jsonLoads _ key { s with currentPage := s.currentPage + 1 } hm1k]
    exact hext
  rw [hextm]
  have ht : pyTruthy (JVal.arr l) = true := by simp [pyTruthy, List.isEmpty_iff, hne]
  rw [if_pos ht]
  simp only [pyLen]
  have hset : setTotalPages (setCurrentPage m key (s.currentPage + 1)) key
      ((l.length + cfg.resultsPerPage - 1) / cfg.resultsPerPage) key =
      some ⟨s.results, s.keyword, s.isFullNetwork, s.panType, s.currentPage + 1,
        (l.length + cfg.resultsPerPage - 1) / cfg.resultsPerPage, s.isSse⟩ := by
    simp [setTotalPages, setCurrentPage, hmk]
  rw [hset, ← htot]

/-- Iterating the forward handler from a consistent session advances the
current page one step per call. -/
theorem iterNextPage_reach (jsonLoads : String → Option JVal)
    (transferRender : List JVal → ℕ → List String) (cfg : PluginCfg) (key : String)
    (l : List JVal) (hpag : cfg.enablePagination = true) (hne : l ≠ []) :
    ∀ (k : ℕ) (m : SessMap) (s : Session), m key = some s →
      pyDataTruthy s.results = true →
      sessionExtract jsonLoads s = .arr l →
      s.totalPages = (l.length + cfg.resultsPerPage - 1) / cfg.resultsPerPage →
      1 ≤ s.currentPage → s.currentPage + k ≤ s.totalPages →
      (iterNextPage jsonLoads transferRender cfg key k m) key =
        some { s with currentPage := s.currentPage + k } := by
  intro k
  induction k with
  | zero =>
    intro m s hmk _ _ _ _ _
    exact hmk
  | succ k ih =>
    intro m s hmk htr hext htot hcur hbound
    have htp : 1 < s.totalPages := by omega
    have hcp : s.currentPage < s.totalPages := by omega
    have hstep := nextPage_advance_session jsonLoads transferRender cfg m key s l hpag hmk
      htr hext hne htot htp hcp
    have hind := ih (nextPageCore jsonLoads transferRender cfg m key).2
      { s with currentPage := s.currentPage + 1 } hstep htr hext htot
      (by
        show 1 ≤ s.currentPage + 1
        omega)
      (by
        show s.currentPage + 1 + k ≤ s.totalPages
        omega)
    rw [show iterNextPage jsonLoads transferRender cfg key (k + 1) m =
      iterNextPage jsonLoads transferRender cfg key k
        (nextPageCore jsonLoads transferRender cfg m key).2 from rfl]
    rw [hind]
    have heq : s.currentPage + 1 + k = s.currentPage + (k + 1) := by omega
    rw [show ({ s with currentPage := s.currentPage + 1 } : Session).currentPage + k =
      s.currentPage + 1 + k from rfl, heq]

/-- C5 (amended): with pagination enabled, the handlers for `1` and `下`
and `0` are silent no-ops when there is no session, when the stored
results are empty (falsy), or when `total_pages ≤ 1`; the handler for
`上` is silent in the latter two cases but answers the no-session case
with the no-search-session message (the counterexample refutes the
original "no message" claim there).  Otherwise the forward handlers
advance the current page and re-render when below the last page and
answer with the last-page message (page unchanged) at the last page;
the backward handlers are symmetric with the first-page message at page
1; and advancing `ceil(L/P) - 1` times from page 1 reaches the last
page. -/
theorem page_navigation_spec :
    (∀ (jsonLoads : String → Option JVal) (transferRender : List JVal → ℕ → List String)
        (cfg : PluginCfg) (m : SessMap) (key : String),
      cfg.enablePagination = true → m key = none →
      next_page jsonLoads transferRender cfg m key = ([], m) ∧
      next_page_simple jsonLoads transferRender cfg m key = ([], m) ∧
      previous_page jsonLoads transferRender cfg m key = ([], m) ∧
      previous_page_simple jsonLoads transferRender cfg m key = ([msgNoSearchSession], m)) ∧
    (∀ (jsonLoads : String → Option JVal) (transferRender : List JVal → ℕ → List String)
        (cfg : PluginCfg) (m : SessMap) (key : String) (s : Session),
      cfg.enablePagination = true → m key = some s → pyDataTruthy s.results = false →
      next_page jsonLoads transferRender cfg m key = ([], m) ∧
      next_page_simple jsonLoads transferRender cfg m key = ([], m) ∧
      previous_page jsonLoads transferRender cfg m key = ([], m) ∧
      previous_page_simple jsonLoads transferRender cfg m key = ([], m)) ∧
    (∀ (jsonLoads : String → Option JVal) (transferRender : List JVal → ℕ → List String)
        (cfg : PluginCfg) (m : SessMap) (key : String) (s : Session),
      cfg.enablePagination = true → m key = some s → pyDataTruthy s.results = true →
      s.totalPages ≤ 1 →
      next_page jsonLoads transferRender cfg m key = ([], m) ∧
      next_page_simple jsonLoads transferRender cfg m key = ([], m) ∧
      previous_page jsonLoads transferRender cfg m key = ([], m) ∧
      previous_page_simple jsonLoads transferRender cfg m key = ([], m)) ∧
    (∀ (jsonLoads : String → Option JVal) (transferRender : List JVal → ℕ → List String)
        (cfg : PluginCfg) (m : SessMap) (key : String) (s : Session),
      cfg.enablePagination = true → m key = some s → pyDataTruthy s.results = true →
      1 < s.totalPages → s.currentPage < s.totalPages →
      (next_page jsonLoads transferRender cfg m key).1 =
        [msgTurningPage, (format_search_results jsonLoads transferRender cfg
          (setCurrentPage m key (s.currentPage + 1)) key s.results s.keyword
          (s.currentPage + 1)).1] ∧
      ((next_page jsonLoads transferRender cfg m key).2 key).map Session.currentPage =
        some (s.currentPage + 1) ∧
      next_page_simple jsonLoads transferRender cfg m key =
        next_page jsonLoads transferRender cfg m key) ∧
    (∀ (jsonLoads : String → Option JVal) (transferRender : List JVal → ℕ → List String)
        (cfg : PluginCfg) (m : SessMap) (key : String) (s : Session),
      cfg.enablePagination = true → m key = some s → pyDataTruthy s.results = true →
      1 < s.totalPages → ¬(s.currentPage < s.totalPages) →
      next_page jsonLoads transferRender cfg m key = ([msgLastPage], m) ∧
      next_page_simple jsonLoads transferRender cfg m key = ([msgLastPage], m)) ∧
    (∀ (jsonLoads : String → Option JVal) (transferRender : List JVal → ℕ → List String)
        (cfg : PluginCfg) (m : SessMap) (key : String) (s : Session),
      cfg.enablePagination = true → m key = some s → pyDataTruthy s.results = true →
      1 < s.totalPages → 1 < s.currentPage →
      (previous_page jsonLoads transferRender cfg m key).1 =
        [msgTurningPage, (format_search_results jsonLoads transferRender cfg
          (setCurrentPage m key (s.currentPage - 1)) key s.results s.keyword
          (s.currentPage - 1)).1] ∧
      ((previous_page jsonLoads transferRender cfg m key).2 key).map Session.currentPage =
        some (s.currentPage - 1) ∧
      previous_page_simple jsonLoads transferRender cfg m key =
        previous_page jsonLoads transferRender cfg m key) ∧
    (∀ (jsonLoads : String → Option JVal) (transferRender : List JVal → ℕ → List String)
        (cfg : PluginCfg) (m : SessMap) (key : String) (s : Session),
      cfg.enablePagination = true → m key = some s → pyDataTruthy s.results = true →
      1 < s.totalPages → ¬(1 < s.currentPage) →
      previous_page jsonLoads transferRender cfg m key = ([msgFirstPage], m) ∧
      previous_page_simple jsonLoads transferRender cfg m key = ([msgFirstPage], m)) ∧
    (∀ (jsonLoads : String → Option JVal) (transferRender : List JVal → ℕ → List String)
        (cfg : PluginCfg) (m : SessMap) (key : String) (s : Session) (l : List JVal),
      cfg.enablePagination = true → 1 ≤ cfg.resultsPerPage → m key = some s →
      pyDataTruthy s.results = true → sessionExtract jsonLoads s = .arr l → l ≠ [] →
      s.currentPage = 1 →
      s.totalPages = (l.length + cfg.resultsPerPage - 1) / cfg.resultsPerPage →
      ((iterNextPage jsonLoads transferRender cfg key (s.totalPages - 1) m) key).map
        Session.currentPage = some s.totalPages) := by
  refine ⟨?_, ?_, ?_, ?_, ?_, ?_, ?_, ?_⟩
  · intro jsonLoads transferRender cfg m key hpag hmk
    refine ⟨?_, ?_, ?_, ?_⟩ <;>
      simp [next_page, next_page_simple, previous_page, previous_page_simple,
        nextPageCore, prevPageCore, hpag, hmk]
  · intro jsonLoads transferRender cfg m key s hpag hmk htr
    refine ⟨?_, ?_, ?_, ?_⟩ <;>
      simp [next_page, next_page_simple, previous_page, previous_page_simple,
        nextPageCore, prevPageCore, hpag, hmk, htr]
  · intro jsonLoads transferRender cfg m key s hpag hmk htr htp
    refine ⟨?_, ?_, ?_, ?_⟩ <;>
      simp [next_page, next_page_simple, previous_page, previous_page_simple,
        nextPageCore, prevPageCore, hpag, hmk, htr, htp]
  · intro jsonLoads transferRender cfg m key s hpag hmk htr htp hcp
    obtain ⟨h1, h2⟩ :=
      nextPage_advance_parts jsonLoads transferRender cfg m key s hpag hmk htr htp hcp
    exact ⟨h1, h2, rfl⟩
  · intro jsonLoads transferRender cfg m key s hpag hmk htr htp hcp
    have htp' : ¬(s.totalPages ≤ 1) := by omega
    constructor <;>
      simp [next_page, next_page_simple, nextPageCore, hpag, hmk, htr, htp', hcp]
  · intro jsonLoads transferRender cfg m key s hpag hmk htr htp hcp
    obtain ⟨h1, h2⟩ :=
      prevPage_back_parts jsonLoads transferRender cfg false m key s hpag hmk htr htp hcp
    refine ⟨h1, h2, ?_⟩
    simp [previous_page, previous_page_simple, prevPageCore, hpag, hmk]
  · intro jsonLoads transferRender cfg m key s hpag hmk htr htp hcp
    have htp' : ¬(s.totalPages ≤ 1) := by omega
    constructor <;>
      simp [previous_page, previous_page_simple, prevPageCore, hpag, hmk, htr, htp', hcp]
  · intro jsonLoads transferRender cfg m key s l hpag hp hmk htr hext hne hc1 htot
    have htotpos : 1 ≤ s.totalPages := by
      rw [htot]
      exact ceil_div_pos l.length cfg.resultsPerPage
        (by
          have := List.length_pos.mpr hne
          omega) hp
    have hreach := iterNextPage_reach jsonLoads transferRender cfg key l hpag hne
      (s.totalPages - 1) m s hmk htr hext htot (by omega) (by omega)
    rw [hreach]
    simp
    omega

/-- Witness for `page_navigation_spec`: a stored 7-result session with
page size 5 (2 pages) reaches the last page after one forward advance. -/
theorem page_navigation_spec_witness :
    ((iterNextPage (fun _ => none) (fun _ _ => []) ⟨5, true, true, "k", "b"⟩ "u" (2 - 1)
        (fun k => if k = "u" then
          some ⟨.json (.arr [.null, .null, .null, .null, .null, .null, .null]),
            "kw", false, 0, 1, 2, false⟩
        else none)) "u").map Session.currentPage = some 2 :=
  page_navigation_spec.2.2.2.2.2.2.2 (fun _ => none) (fun _ _ => [])
    ⟨5, true, true, "k", "b"⟩
    (fun k => if k = "u" then
      some ⟨.json (.arr [.null, .null, .null, .null, .null, .null, .null]),
        "kw", false, 0, 1, 2, false⟩
    else none)
    "u" ⟨.json (.arr [.null, .null, .null, .null, .null, .null, .null]),
      "kw", false, 0, 1, 2, false⟩
    [.null, .null, .null, .null, .null, .null, .null]
    rfl (by decide) rfl rfl rfl (by simp) rfl (by decide)

/-- C5 counterexample: the `上` handler with no stored session yields
the no-search-session message, not the silent no-op the claim asserts
for every page-navigation handler. -/
theorem previous_page_simple_no_session_counterexample :
    (previous_page_simple (fun _ => none) (fun _ _ => []) ⟨5, true, true, "k", "b"⟩
      (fun _ => none) "u").1 = [msgNoSearchSession] ∧
    [msgNoSearchSession] ≠ ([] : List String) :=
  ⟨rfl, by decide⟩

theorem identify_pan_type_supported (url : String) :
    transferSupportedTypes.contains (identify_pan_type url) = true := by
  simp only [identify_pan_type]
  split_ifs <;> decide

/-- Unfolding of `renderRecord` on a dict record. -/
theorem renderRecord_obj (oracle : ℕ → GatherOutcome) (startIndex i : ℕ)
    (fs : List (String × JVal)) :
    renderRecord oracle startIndex i (.obj fs) =
      (match jLookup fs "url" with
        | some (.str url) =>
          if url.data.isEmpty then
            some (format_single_result (startIndex + i + 1)
              (jGetStrD fs "title" msgResourceTitleDefault) "")
          else
            if transferSupportedTypes.contains (identify_pan_type url) then
              some (match oracle i with
                | .raised => msgProcessingFailed
                | .ok t u => transfer_success_line (startIndex + i + 1) t u
                | .fail => transfer_failure_line (startIndex + i + 1)
                    (jGetStrD fs "title" msgResourceTitleDefault))
            else some (format_single_result (startIndex + i + 1)
              (jGetStrD fs "title" msgResourceTitleDefault) url)
        | some v =>
          if pyTruthy v then none
          else some (format_single_result (startIndex + i + 1)
            (jGetStrD fs "title" msgResourceTitleDefault) "")
        | none => some (format_single_result (startIndex + i + 1)
            (jGetStrD fs "title" msgResourceTitleDefault) "")) := rfl

theorem renderRecord_isSome (oracle : ℕ → GatherOutcome) (startIndex i : ℕ)
    (fs : List (String × JVal)) (hok : recordUrlOk fs = true) :
    ∃ line, renderRecord oracle startIndex i (.obj fs) = some line := by
  rw [renderRecord_obj]
  cases hu : jLookup fs "url" with
  | none => exact ⟨_, rfl⟩
  | some v =>
    cases v with
    | str url =>
      by_cases he : url.data.isEmpty
      · exact ⟨format_single_result (startIndex + i + 1)
          (jGetStrD fs "title" msgResourceTitleDefault) "", by simp [he]⟩
      · have hmem : identify_pan_type url ∈ transferSupportedTypes := by
          simpa using identify_pan_type_supported url
        exact ⟨(match oracle i with
          | .raised => msgProcessingFailed
          | .ok t u => transfer_success_line (startIndex + i + 1) t u
          | .fail => transfer_failure_line (startIndex + i + 1)
              (jGetStrD fs "title" msgResourceTitleDefault)),
          by simp [he, hmem]⟩
    | obj fs' =>
      have hf : pyTruthy (JVal.obj fs') = false := by
        simpa [recordUrlOk, hu] using hok
      exact ⟨format_single_result (startIndex + i + 1)
        (jGetStrD fs "title" msgResourceTitleDefault) "", by simp [hf]⟩
    | arr l =>
      have hf : pyTruthy (JVal.arr l) = false := by
        simpa [recordUrlOk, hu] using hok
      exact ⟨format_single_result (startIndex + i + 1)
        (jGetStrD fs "title" msgResourceTitleDefault) "", by simp [hf]⟩
    | num n =>
      have hf : pyTruthy (JVal.num n) = false := by
        simpa [recordUrlOk, hu] using hok
      exact ⟨format_single_result (startIndex + i + 1)
        (jGetStrD fs "title" msgResourceTitleDefault) "", by simp [hf]⟩
    | bool b =>
      have hf : pyTruthy (JVal.bool b) = false := by
        simpa [recordUrlOk, hu] using hok
      exact ⟨format_single_result (startIndex + i + 1)
        (jGetStrD fs "title" msgResourceTitleDefault) "", by simp [hf]⟩
    | null =>
      have hf : pyTruthy JVal.null = false := by
        simpa [recordUrlOk, hu] using hok
      exact ⟨format_single_result (startIndex + i + 1)
        (jGetStrD fs "title" msgResourceTitleDefault) "", by simp [hf]⟩

theorem transferGather_all_obj (oracle : ℕ → GatherOutcome) (startIndex : ℕ) :
    ∀ (results : List JVal) (i : ℕ),
      (∀ item ∈ results, ∃ fs, item = JVal.obj fs ∧ recordUrlOk fs = true) →
      ∃ lines, transferGather oracle startIndex i results = some lines ∧
        lines.length = results.length ∧
        ∀ (j : ℕ) (hj : j < results.length) (hj' : j < lines.length),
          some (lines.get ⟨j, hj'⟩) =
            renderRecord oracle startIndex (i + j) (results.get ⟨j, hj⟩) := by
  intro results
  induction results with
  | nil =>
    intro i _
    exact ⟨[], rfl, rfl, fun j hj => by simp at hj⟩
  | cons item rest ih =>
    intro i hall
    obtain ⟨fs, hfs, hok⟩ := hall item (by simp)
    obtain ⟨line, hline⟩ := renderRecord_isSome oracle startIndex i fs hok
    obtain ⟨lines, hlines, hlen, hidx⟩ :=
      ih (i + 1) (fun it hit => hall it (by simp [hit]))
    refine ⟨line :: lines, ?_, by simp [hlen], ?_⟩
    · rw [show transferGather oracle startIndex i (item :: rest) =
        (match renderRecord oracle startIndex i item with
          | none => none
          | some line =>
            match transferGather oracle startIndex (i + 1) rest with
            | none => none
            | some lines => some (line :: lines)) from rfl]
      rw [hfs, hline, hlines]
    · intro j hj hj'
      cases j with
      | zero =>
        simp only [List.get]
        rw [show i + 0 = i from rfl, hfs]
        exact hline.symm
      | succ j =>
        have hj1 : j < rest.length := by simpa using hj
        have hj1' : j < lines.length := by simpa using hj'
        have := hidx j hj1 hj1'
        simpa [show i + 1 + j = i + (j + 1) from by omega] using this

/-- C6: with transfer enabled and an API key configured,
`_transfer_and_format_results` returns exactly one rendered line per
input record, the line at position `i` being determined by record `i`
and its own task outcome (so output order is index order, independent
of completion order); a task-level exception becomes the generic
processing-failed line; and a per-record transfer failure renders only
the record's index and title — the failure line is the same for any
original URL. -/
theorem transfer_format_results_spec :
    (∀ (apiKey : String) (oracle : ℕ → GatherOutcome) (results : List JVal) (startIndex : ℕ),
      apiKey.data.isEmpty = false →
      (∀ item ∈ results, ∃ fs, item = JVal.obj fs ∧ recordUrlOk fs = true) →
      ∃ lines, transfer_and_format_results true apiKey oracle results startIndex = some lines ∧
        lines.length = results.length ∧
        ∀ (i : ℕ) (hi : i < results.length) (hi' : i < lines.length),
          some (lines.get ⟨i, hi'⟩) = renderRecord oracle startIndex i (results.get ⟨i, hi⟩)) ∧
    (∀ (oracle : ℕ → GatherOutcome) (startIndex i : ℕ) (fs : List (String × JVal))
        (url : String),
      jLookup fs "url" = some (.str url) → url.data.isEmpty = false →
      oracle i = .raised →
      renderRecord oracle startIndex i (.obj fs) = some msgProcessingFailed) ∧
    (∀ (oracle : ℕ → GatherOutcome) (startIndex i : ℕ) (title url₁ url₂ : String),
      url₁.data.isEmpty = false → url₂.data.isEmpty = false → oracle i = .fail →
      renderRecord oracle startIndex i (.obj [("title", .str title), ("url", .str url₁)]) =
        some (transfer_failure_line (startIndex + i + 1) title) ∧
      renderRecord oracle startIndex i (.obj [("title", .str title), ("url", .str url₂)]) =
        some (transfer_failure_line (startIndex + i + 1) title)) := by
  refine ⟨?_, ?_, ?_⟩
  · intro apiKey oracle results startIndex hkey hall
    obtain ⟨lines, hg, hlen, hidx⟩ := transferGather_all_obj oracle startIndex results 0 hall
    refine ⟨lines, ?_, hlen, ?_⟩
    · have hbranch : transfer_and_format_results true apiKey oracle results startIndex =
          transferGather oracle startIndex 0 results := by
        simp [transfer_and_format_results, hkey]
      rw [hbranch]
      exact hg
    · intro i hi hi'
      simpa using hidx i hi hi'
  · intro oracle startIndex i fs url hu hne hraise
    rw [renderRecord_obj, hu]
    have hmem : identify_pan_type url ∈ transferSupportedTypes := by
      simpa using identify_pan_type_supported url
    simp [hne, hmem, hraise]
  · intro oracle startIndex i title url₁ url₂ h1 h2 hfail
    constructor <;>
      · rw [renderRecord_obj]
        have hmem : ∀ u : String, identify_pan_type u ∈ transferSupportedTypes := by
          intro u
          simpa using identify_pan_type_supported u
        simp [jLookup, jGetStrD, pyStr, h1, h2, hfail, hmem]

/-- Witness for `transfer_format_results_spec`: failed transfers of the
same record with two different URLs render the same index-and-title
line. -/
theorem transfer_format_results_spec_witness :
    renderRecord (fun _ => .fail) 0 0 (.obj [("title", .str "t"), ("url", .str "u1")]) =
      some (transfer_failure_line 1 "t") ∧
    renderRecord (fun _ => .fail) 0 0 (.obj [("title", .str "t"), ("url", .str "u2")]) =
      some (transfer_failure_line 1 "t") :=
  transfer_format_results_spec.2.2 (fun _ => .fail) 0 0 "t" "u1" "u2"
    (by decide) (by decide) rfl

/-- C8: a cache entry younger than 300 seconds is served with zero
credential requests, by both `_get_actual_cookie_value` and the lookup
inside `_transfer_and_share` (whose whole network trace is then the
single transfer POST); a missing or stale entry triggers the two-step
refresh — a liveness probe, then, only if the probe succeeds, the value
fetch — and a fetched value is stored under the current timestamp
(hence fresh) before being returned. -/
theorem credential_cache_spec :
    (∀ (env : CookieEnv) (now : ℚ) (cache : CookieCache) (pan v : String) (ts : ℚ),
      cache pan = some (v, ts) → pySub now ts < 300 →
      get_actual_cookie_value env now cache pan = (v, cache, [])) ∧
    (∀ (env : CookieEnv) (now : ℚ) (cache : CookieCache) (pan v : String) (ts : ℚ),
      cache pan = some (v, ts) → pySub now ts < 300 →
      resolveTransferCookie env now cache pan = (some v, cache, [])) ∧
    (∀ (env : CookieEnv) (now : ℚ) (cache : CookieCache) (pan : String),
      apiEndpoints.contains pan = true →
      (cache pan = none ∨ ∃ v ts, cache pan = some (v, ts) ∧ ¬(pySub now ts < 300)) →
      (env.probeOk pan = false →
        resolveTransferCookie env now cache pan = (none, cache, [.cookieProbe pan])) ∧
      ((env.fetchValue pan).data.isEmpty = false → env.probeOk pan = true →
        resolveTransferCookie env now cache pan =
          (some (env.fetchValue pan), cacheSet cache pan (env.fetchValue pan) now,
            [.cookieProbe pan, .cookieFetch pan]) ∧
        cacheSet cache pan (env.fetchValue pan) now pan = some (env.fetchValue pan, now))) ∧
    (∀ (env : CookieEnv) (transferApi : TransferApiOutcome) (apiKey : String) (now : ℚ)
        (cache : CookieCache) (url code v : String) (ts : ℚ),
      apiKey.data.isEmpty = false →
      cache (identify_pan_type url) = some (v, ts) → pySub now ts < 300 →
      (transfer_and_share env transferApi apiKey now cache url code).2.2 =
        [NetCall.transferPost]) := by
  refine ⟨?_, ?_, ?_, ?_⟩
  · intro env now cache pan v ts h1 h2
    simp only [get_actual_cookie_value, h1]
    rw [if_pos h2]
  · intro env now cache pan v ts h1 h2
    simp only [resolveTransferCookie, h1]
    rw [if_pos h2]
  · intro env now cache pan hin hstale
    have hres : resolveTransferCookie env now cache pan = resolveStaleCookie env now cache pan := by
      rcases hstale with h | ⟨v, ts, h, hts⟩
      · simp only [resolveTransferCookie, h]
      · simp only [resolveTransferCookie, h]
        rw [if_neg hts]
    have hfetch : get_actual_cookie_value env now cache pan =
        get_actual_cookie_fetch env now cache pan := by
      rcases hstale with h | ⟨v, ts, h, hts⟩
      · simp only [get_actual_cookie_value, h]
      · simp only [get_actual_cookie_value, h]
        rw [if_neg hts]
    have hinm : pan ∈ apiEndpoints := by simpa using hin
    have hnil : (("" : String).data = []) := by decide
    have hapi : ¬(("API_SUCCESS" : String).data = []) := by decide
    constructor
    · intro hprobe
      rw [hres]
      simp [resolveStaleCookie, get_cookie_from_database, hinm, hprobe, hnil]
    · intro hval hprobe
      have hval' : ¬((env.fetchValue pan).data = []) := by
        simpa [List.isEmpty_iff] using hval
      constructor
      · rw [hres]
        simp [resolveStaleCookie, get_cookie_from_database, get_actual_cookie_fetch, hinm,
          hprobe, hval', hapi, hfetch]
      · simp [cacheSet]
  · intro env transferApi apiKey now cache url code v ts hkey hfresh hts
    have hres : resolveTransferCookie env now cache (identify_pan_type url) =
        (some v, cache, []) := by
      simp only [resolveTransferCookie, hfresh]
      rw [if_pos hts]
    have hkey' : ¬(apiKey.data.isEmpty = true) := by simp [hkey]
    simp only [transfer_and_share]
    rw [if_neg hkey']
    rw [hres]
    cases transferApi <;> rfl

/-- Witness for `credential_cache_spec`: a cache entry stored at time 0
is served unchanged at time 0, and a stale entry refreshes in two
steps. -/
theorem credential_cache_spec_witness :
    get_actual_cookie_value ⟨fun _ => true, fun _ => "c"⟩ 0
      (fun p => if p = "quark" then some ("v", 0) else none) "quark" =
      ("v", (fun p => if p = "quark" then some ("v", 0) else none), []) ∧
    resolveTransferCookie ⟨fun _ => true, fun _ => "c"⟩ 400
      (fun p => if p = "quark" then some ("v", 0) else none) "quark" =
      (some "c", cacheSet (fun p => if p = "quark" then some ("v", 0) else none) "quark" "c" 400,
        [.cookieProbe "quark", .cookieFetch "quark"]) :=
  ⟨credential_cache_spec.1 ⟨fun _ => true, fun _ => "c"⟩ 0
      (fun p => if p = "quark" then some ("v", 0) else none) "quark" "v" 0 rfl (by decide),
    ((credential_cache_spec.2.2.1 ⟨fun _ => true, fun _ => "c"⟩ 400
      (fun p => if p = "quark" then some ("v", 0) else none) "quark" (by decide)
      (Or.inr ⟨"v", 0, rfl, by decide⟩)).2 (by decide) rfl).1⟩

/-- C10: `re` is not a module-level name of `main.py`, so with transfer
enabled and an API key configured, every invocation of the `转存N`
handler — for every session state, index and network environment —
yields only the generic transfer-error message and performs no network
call at all (in particular no transfer POST). -/
theorem transfer_resource_name_error_spec :
    moduleTopLevelNames.contains "re" = false ∧
    (∀ (jsonLoads : String → Option JVal) (env : CookieEnv)
        (transferApi : TransferApiOutcome) (cfg : PluginCfg) (now : ℚ)
        (cache : CookieCache) (m : SessMap) (key : String) (resourceIndex : ℕ),
      cfg.enableTransfer = true → cfg.apiKey.data.isEmpty = false →
      transfer_resource jsonLoads env transferApi cfg now cache m key resourceIndex =
        ([msgTransferError], cache, [])) := by
  refine ⟨by decide, ?_⟩
  intro jsonLoads env transferApi cfg now cache m key resourceIndex h1 h2
  have hre : ("re" : String) ∉ moduleTopLevelNames := by decide
  simp [transfer_resource, h1, h2, hre]

/-- Witness for `transfer_resource_name_error_spec` at a concrete
invocation. -/
theorem transfer_resource_name_error_spec_witness :
    transfer_resource (fun _ => none) ⟨fun _ => true, fun _ => "c"⟩ (.ok "t" "u")
      ⟨5, true, true, "k", "b"⟩ 0 (fun _ => none) (fun _ => none) "u" 3 =
      ([msgTransferError], (fun _ => none), []) :=
  transfer_resource_name_error_spec.2 (fun _ => none) ⟨fun _ => true, fun _ => "c"⟩
    (.ok "t" "u") ⟨5, true, true, "k", "b"⟩ 0 (fun _ => none) (fun _ => none) "u" 3
    rfl (by decide)

/-- C9 failing input: a session holding 7 results on page 2 and the
command `转存3`.  The real handler returns the generic transfer error
(the `NameError` path), not the invalid-resource-index message; and
even with `re` imported the body's bounds check `1 ≤ 3 ≤ 7` passes
while the access position `(2-1)*5 + 3 - 1 = 7` is out of range for the
7-element list, so the `IndexError` again surfaces as the generic
transfer error instead of the claimed validation message. -/
theorem transfer_resource_index_bug :
    transfer_resource (fun _ => none) ⟨fun _ => true, fun _ => "c"⟩ (.ok "t" "u")
      ⟨5, true, true, "k", "b"⟩ 0 (fun _ => none)
      (fun k => if k = "u" then
        some ⟨.json (.arr (List.replicate 7
          (JVal.obj [("title", .str "t"), ("url", .str "https://pan.quark.cn/s/x")]))),
          "kw", false, 0, 2, 2, false⟩
      else none) "u" 3 =
      ([msgTransferError], (fun _ => none), []) ∧
    msgTransferError ≠ msgInvalidResourceIndex 7 ∧
    ¬((3 : ℕ) < 1 ∨ (7 : ℕ) < 3) ∧
    (List.replicate 7
      (JVal.obj [("title", JVal.str "t"),
        ("url", JVal.str "https://pan.quark.cn/s/x")])).get? ((2 - 1) * 5 + 3 - 1) = none ∧
    transfer_resource_body (fun _ => none) ⟨fun _ => true, fun _ => "c"⟩ (.ok "t" "u")
      "k" 0 (fun _ => none)
      (fun k => if k = "u" then
        some ⟨.json (.arr (List.replicate 7
          (JVal.obj [("title", .str "t"), ("url", .str "https://pan.quark.cn/s/x")]))),
          "kw", false, 0, 2, 2, false⟩
      else none) "u" 3 =
      ([msgTransferError], (fun _ => none), []) :=
  ⟨rfl, by decide, by decide, rfl, rfl⟩
